import Mathlib

/-!
Verification development for the `socialchoicekit` deterministic two-sided
matching module (`socialchoicekit/deterministic_matching.py`, together with
`utils.check_profile`, the `profile_utils` wrapper constructors and
`data_generation.compute_ordinal_profile`).

The Python code is shallowly embedded: numpy float matrices become
`List (List (Option ℚ))` (with `none` playing the role of `np.nan`),
Python list/array indexing (including negative-index wrap-around and
`IndexError`) is modelled by `pyListGet`/`pyListSet`, dictionaries keyed by
`0..n-1` by `dictGet`/`dictSet`, and exceptions by the `Except PyErr` monad.
Loops whose termination is not structural carry an explicit fuel argument
(`PyErr.fuelExhausted` can only arise from insufficient fuel, never from the
Python program itself).
-/

/-- Python exception outcomes that the embedded code can produce. -/
inductive PyErr where
  /-- `TypeError`, in this development always the "unexpected keyword
  argument" error raised when calling `check_profile` with keyword arguments
  absent from its signature. -/
  | typeError : PyErr
  /-- `ValueError` with its message. -/
  | valueError : String → PyErr
  /-- `IndexError` from list/array indexing out of range. -/
  | indexError : PyErr
  /-- `KeyError` from a dictionary lookup on a missing key. -/
  | keyError : PyErr
  /-- `AssertionError` from a failing `assert`. -/
  | assertionError : PyErr
  /-- `NameError` from reading a never-assigned local variable. -/
  | nameError : PyErr
  /-- Artifact of the embedding: the fuel of a fuelled loop ran out.  Not a
  Python behaviour. -/
  | fuelExhausted : PyErr
  deriving DecidableEq, Repr

/-- A numpy float value: `none` is `np.nan`, `some q` a (rational) number. -/
abbrev Val : Type := Option ℚ

/-- A two-dimensional numpy float array, row major. -/
abbrev Mat : Type := List (List Val)

/-- `np.isnan` on a single value. -/
def isNan (v : Val) : Bool := v.isNone

/-- numpy elementwise `<` on scalars: any comparison with NaN is false. -/
def valLt (a b : Val) : Bool :=
  match a, b with
  | some x, some y => decide (x < y)
  | _, _ => false

/-- `shape[1]` of a rectangular 2-D array (length of the first row). -/
def shape1 (m : Mat) : ℕ := (m.headD []).length

/-- Python `int(q)`: truncation towards zero. -/
def pyInt (q : ℚ) : ℤ := if 0 ≤ q then ⌊q⌋ else ⌈q⌉

/-- `sys.maxsize` on a 64-bit platform. -/
def sysMaxsize : ℤ := 9223372036854775807

/-- Python list (or 1-D numpy array) read `l[i]`: negative indices wrap
around once; anything else out of range raises `IndexError`. -/
def pyListGet (l : List α) (i : ℤ) : Except PyErr α :=
  if 0 ≤ i then
    match l.get? i.toNat with
    | some a => .ok a
    | none => .error .indexError
  else
    if (-i).toNat ≤ l.length then
      match l.get? (l.length - (-i).toNat) with
      | some a => .ok a
      | none => .error .indexError
    else .error .indexError

/-- Python list (or 1-D numpy array) write `l[i] = a`, with the same index
semantics as `pyListGet`. -/
def pyListSet (l : List α) (i : ℤ) (a : α) : Except PyErr (List α) :=
  if 0 ≤ i then
    if i.toNat < l.length then .ok (l.set i.toNat a) else .error .indexError
  else
    if (-i).toNat ≤ l.length ∧ 0 < (-i).toNat then
      .ok (l.set (l.length - (-i).toNat) a)
    else .error .indexError

/-- Lookup in a Python dict whose keys are exactly `0..n-1` (stored as the
list of its values in key order): no negative wrap-around, a missing key
raises `KeyError`. -/
def dictGet (l : List α) (i : ℤ) : Except PyErr α :=
  if 0 ≤ i then
    match l.get? i.toNat with
    | some a => .ok a
    | none => .error .keyError
  else .error .keyError

/-- Write to a Python dict whose keys are exactly `0..n-1`. -/
def dictSet (l : List α) (i : ℤ) (a : α) : Except PyErr (List α) :=
  if 0 ≤ i then
    if i.toNat < l.length then .ok (l.set i.toNat a) else .error .keyError
  else .error .keyError

/-- Strict comparison used by `argsortRow`: a number precedes NaN, NaN never
precedes anything, numbers compare by value. -/
def argsortLt (a b : Val) : Bool :=
  match a, b with
  | some x, some y => decide (x < y)
  | some _, none => true
  | none, _ => false

/-- Stable insertion of a keyed index into an already sorted list
(`x` goes in front of the first element it is not strictly greater than). -/
def argsortInsert (x : Val × ℕ) : List (Val × ℕ) → List (Val × ℕ)
  | [] => [x]
  | y :: ys => if argsortLt y.1 x.1 then y :: argsortInsert x ys else x :: y :: ys

/-- Stable insertion sort on (value, index) pairs. -/
def argsortSort : List (Val × ℕ) → List (Val × ℕ)
  | [] => []
  | x :: xs => argsortInsert x (argsortSort xs)

/-- `np.argsort` of one row: indices ordered by ascending value with NaN
entries last.  (numpy's default quicksort is not stable; this embedding
resolves ties by original position.  All concrete instances used below have
pairwise distinct non-NaN row entries, where the two agree.) -/
def argsortRow (row : List Val) : List ℕ :=
  (argsortSort (row.zip (List.range row.length))).map Prod.snd

/-- Elementwise subtraction of 1 from a profile row (NaN is preserved),
modelling `profile.view(np.ndarray) - 1`. -/
def minusOne (m : Mat) : Mat := m.map (fun row => row.map (fun v => v.map (· - 1)))

/-- Row-wise `np.argsort(_, axis=1)`. -/
def argsortMat (m : Mat) : List (List ℕ) := m.map argsortRow

/-! ### CPython `heapq` (min-heap on a plain list), translated from
`Lib/heapq.py`: `_siftdown`, `_siftup`, `heappush`, `heappop`.  All internal
positions are in range, so the in-bounds reads use `getD` with an irrelevant
default. -/

/-- `heapq._siftdown(heap, startpos, pos)` with `newitem = heap[pos]`
already read out: move `newitem` towards the root. -/
def heapSiftdown (startpos : ℕ) (newitem : ℤ) (heap : List ℤ) (pos : ℕ) : List ℤ :=
  if h : startpos < pos then
    let parentpos := (pos - 1) / 2
    let parent := heap.getD parentpos 0
    if newitem < parent then
      heapSiftdown startpos newitem (heap.set pos parent) parentpos
    else heap.set pos newitem
  else heap.set pos newitem
termination_by pos
decreasing_by
  omega

/-- `heapq._siftup(heap, pos)` main loop: bubble the hole at `pos` down to a
leaf, then sift `newitem` back up. -/
def heapSiftupLoop (endpos startpos : ℕ) (newitem : ℤ) (heap : List ℤ) (pos : ℕ) : List ℤ :=
  let childpos := 2 * pos + 1
  if h : childpos < endpos then
    let rightpos := childpos + 1
    let childpos :=
      if rightpos < endpos ∧ ¬ (heap.getD childpos 0 < heap.getD rightpos 0) then rightpos
      else childpos
    heapSiftupLoop endpos startpos newitem (heap.set pos (heap.getD childpos 0)) childpos
  else heapSiftdown startpos newitem (heap.set pos newitem) pos
termination_by endpos - pos
decreasing_by
  split <;> omega

/-- `heapq._siftup(heap, pos)`. -/
def heapSiftup (heap : List ℤ) (pos : ℕ) : List ℤ :=
  heapSiftupLoop heap.length pos (heap.getD pos 0) heap pos

/-- `heapq.heappush(heap, item)` (returning the updated heap). -/
def heappush (heap : List ℤ) (item : ℤ) : List ℤ :=
  heapSiftdown 0 item (heap ++ [item]) heap.length

/-- `heapq.heappop(heap)`: smallest item together with the updated heap;
`IndexError` on an empty heap. -/
def heappop (heap : List ℤ) : Except PyErr (ℤ × List ℤ) :=
  match heap with
  | [] => .error .indexError
  | x :: xs =>
    match (x :: xs).dropLast with
    | [] => .ok ((x :: xs).getLastD 0, [])
    | r0 :: rest =>
      .ok (r0, heapSiftup ((r0 :: rest).set 0 ((x :: xs).getLastD 0)) 0)

/-! ### `GaleShapley.scf` (socialchoicekit/deterministic_matching.py, lines 31-178) -/

/-- Message of the dimension-mismatch `ValueError` raised by
`GaleShapley.scf`. -/
def dimErrMsg : String := "The resident profile and hospital profile dimensions do not match."

/-- Mutable state of the resident-oriented Gale-Shapley loop:
`resident_applications` (a dict with default `-1`, modelled as a list over
all residents), `hospital_waiting_lists`, and `next_current_applicants`. -/
structure RoState where
  residentApplications : List ℤ
  hospitalWaitingLists : List (List ℤ)
  nextCurrentApplicants : List ℤ
  deriving Repr, DecidableEq

/-- Body of the `for resident in range(n)` loop of resident-oriented
`GaleShapley.scf` (lines 91-121).  `current` is the copy
`current_applicants` taken at the top of the enclosing `while` iteration. -/
def roResidentStep (rprofile hprofile : Mat) (rankedR rankedH : List (List ℕ))
    (c : List ℤ) (current : List ℤ) (st : RoState) (resident : ℕ) :
    Except PyErr RoState := do
  let cur ← pyListGet current (resident : ℤ)
  if cur = 0 ∨ cur = 2 then return st
  let last ← pyListGet st.residentApplications (resident : ℤ)
  let rankedRow ← pyListGet rankedR (resident : ℤ)
  let nextHospital ← pyListGet rankedRow (last + 1)
  let rRow ← pyListGet rprofile (resident : ℤ)
  let rv ← pyListGet rRow (nextHospital : ℤ)
  if isNan rv then
    let nca ← pyListSet st.nextCurrentApplicants (resident : ℤ) 2
    return { st with nextCurrentApplicants := nca }
  let apps ← pyListSet st.residentApplications (resident : ℤ) (last + 1)
  let st := { st with residentApplications := apps }
  let hRow ← pyListGet hprofile (nextHospital : ℤ)
  let hv ← pyListGet hRow (resident : ℤ)
  match hv with
  | none => return st
  | some hq =>
    let wl ← pyListGet st.hospitalWaitingLists (nextHospital : ℤ)
    let wl := heappush wl (pyInt (hq * (-1)))
    let wls ← pyListSet st.hospitalWaitingLists (nextHospital : ℤ) wl
    let nca ← pyListSet st.nextCurrentApplicants (resident : ℤ) 0
    let st := { st with hospitalWaitingLists := wls, nextCurrentApplicants := nca }
    let cap ← pyListGet c (nextHospital : ℤ)
    if (wl.length : ℤ) ≤ cap then return st
    let (popped, wl) ← heappop wl
    let wls ← pyListSet st.hospitalWaitingLists (nextHospital : ℤ) wl
    let rankedHRow ← pyListGet rankedH (nextHospital : ℤ)
    let dropped ← pyListGet rankedHRow (popped * (-1))
    let nca ← pyListSet st.nextCurrentApplicants ((dropped : ℕ) : ℤ) 1
    return { st with hospitalWaitingLists := wls, nextCurrentApplicants := nca }

/-- The `while True` loop of resident-oriented `GaleShapley.scf`
(lines 82-121), with explicit fuel. -/
def roLoop (rprofile hprofile : Mat) (rankedR rankedH : List (List ℕ))
    (c : List ℤ) (n : ℕ) : ℕ → RoState → Except PyErr RoState
  | 0, _ => .error .fuelExhausted
  | fuel + 1, st => do
    if st.nextCurrentApplicants.all (· ≠ 1) then return st
    let current := st.nextCurrentApplicants
    let st ← (List.range n).foldlM (roResidentStep rprofile hprofile rankedR rankedH c current) st
    roLoop rprofile hprofile rankedR rankedH c n fuel st

/-- Result construction of resident-oriented `GaleShapley.scf`
(lines 123-128). -/
def roCollect (rankedH : List (List ℕ)) (indexFixer : ℤ) (m : ℕ)
    (waiting : List (List ℤ)) : Except PyErr (List (ℤ × ℤ)) :=
  (List.range m).foldlM (fun ans (hospital : ℕ) => do
    let wl := waiting.getD hospital []
    wl.foldlM (fun ans residentRank => do
      let rankedHRow ← pyListGet rankedH (hospital : ℤ)
      let r ← pyListGet rankedHRow (residentRank * (-1))
      return ans ++ [((r : ℤ) + indexFixer, (hospital : ℤ) + indexFixer)]) ans) []

/-- Mutable state of the hospital-oriented Gale-Shapley loop. -/
structure HoState where
  hospitalOffers : List ℤ
  residentWaitingLists : List ℤ
  hospitalAcceptedOffers : List ℤ
  currentOfferers : List ℤ
  deriving Repr, DecidableEq

/-- Lines 168-169 of hospital-oriented `GaleShapley.scf`: on acceptance,
increment the accepted-offer counter of `hospital` and decrement the counter
at index `curAcc` (the resident's previous hospital, or `-1`, which Python
resolves to the LAST index). -/
def acceptedUpdate (accepted : List ℤ) (hospital curAcc : ℤ) :
    Except PyErr (List ℤ) := do
  let a1 ← pyListGet accepted hospital
  let accepted ← pyListSet accepted hospital (a1 + 1)
  let a2 ← pyListGet accepted curAcc
  pyListSet accepted curAcc (a2 - 1)

/-- Lines 154-156: when the hospital has exhausted its acceptable residents,
mark it terminally undersubscribed (`current_offerers[hospital] = 2`) — but
the source has NO `continue` here, so its offer is still made. -/
def hoMarkUndersubscribed (st : HoState) (hospital : ℕ) (hv : Val) :
    Except PyErr HoState :=
  if isNan hv then do
    let co ← pyListSet st.currentOfferers (hospital : ℤ) 2
    pure { st with currentOfferers := co }
  else pure st

/-- Line 166: the resident accepts when it holds no offer (`curAcc = -1`) or
prefers this hospital to its current one (NaN comparisons are false). -/
def hoAcceptDecision (rRow : List Val) (rv : Val) (curAcc : ℤ) :
    Except PyErr Bool :=
  if curAcc = -1 then pure true
  else do
    let rvCur ← pyListGet rRow curAcc
    pure (valLt rv rvCur)

/-- Body of the `for hospital in range(m)` loop of hospital-oriented
`GaleShapley.scf` (lines 147-170).  `acceptedUpdate` is reached with
`curAcc = -1` when the resident had no previous offer. -/
def hoHospitalStep (rprofile hprofile : Mat) (rankedH : List (List ℕ))
    (st : HoState) (hospital : ℕ) : Except PyErr HoState := do
  let cur ← pyListGet st.currentOfferers (hospital : ℤ)
  if cur = 0 ∨ cur = 2 then return st
  let last ← pyListGet st.hospitalOffers (hospital : ℤ)
  let rankedRow ← pyListGet rankedH (hospital : ℤ)
  let nextResident ← pyListGet rankedRow (last + 1)
  let hRow ← pyListGet hprofile (hospital : ℤ)
  let hv ← pyListGet hRow (nextResident : ℤ)
  let st ← hoMarkUndersubscribed st hospital hv
  let offers ← pyListSet st.hospitalOffers (hospital : ℤ) (last + 1)
  let st := { st with hospitalOffers := offers }
  let rRow ← pyListGet rprofile (nextResident : ℤ)
  let rv ← pyListGet rRow (hospital : ℤ)
  if isNan rv then return st
  let curAcc ← pyListGet st.residentWaitingLists (nextResident : ℤ)
  let accept ← hoAcceptDecision rRow rv curAcc
  if accept then
    let acc ← acceptedUpdate st.hospitalAcceptedOffers (hospital : ℤ) curAcc
    let rwl ← pyListSet st.residentWaitingLists (nextResident : ℤ) (hospital : ℤ)
    return { st with hospitalAcceptedOffers := acc, residentWaitingLists := rwl }
  else return st

/-- The recomputation of `current_offerers` at the top of the hospital loop
(line 141): `np.where(current == 2, 2, np.where(c == accepted, 0, 1))`. -/
def recomputeOfferers (current c accepted : List ℤ) : List ℤ :=
  current.zipWith (fun cur (p : ℤ × ℤ) => if cur = 2 then 2 else if p.1 = p.2 then 0 else 1)
    (c.zip accepted)

/-- The `while True` loop of hospital-oriented `GaleShapley.scf`
(lines 140-170), with explicit fuel. -/
def hoLoop (rprofile hprofile : Mat) (rankedH : List (List ℕ))
    (c : List ℤ) (m : ℕ) : ℕ → HoState → Except PyErr HoState
  | 0, _ => .error .fuelExhausted
  | fuel + 1, st => do
    let co := recomputeOfferers st.currentOfferers c st.hospitalAcceptedOffers
    let st := { st with currentOfferers := co }
    if co.all (· ≠ 1) then return st
    let st ← (List.range m).foldlM (hoHospitalStep rprofile hprofile rankedH) st
    hoLoop rprofile hprofile rankedH c m fuel st

/-- Result construction of hospital-oriented `GaleShapley.scf`
(lines 172-178). -/
def hoCollect (indexFixer : ℤ) (n : ℕ) (waiting : List ℤ) : List (ℤ × ℤ) :=
  (List.range n).foldl (fun ans resident =>
    let hospital := waiting.getD resident (-1)
    if hospital = -1 then ans
    else ans ++ [((resident : ℤ) + indexFixer, hospital + indexFixer)]) []

/-- Everything `GaleShapley.scf` does after the dimension check
(lines 62-178). -/
def galeShapleyMain (residentOriented : Bool) (indexFixer : ℤ) (fuel : ℕ)
    (residentProfile hospitalProfile : Mat) (c : List ℤ) :
    Except PyErr (List (ℤ × ℤ)) := do
  let n := residentProfile.length
  let m := shape1 residentProfile
  let rprofile := minusOne residentProfile
  let hprofile := minusOne hospitalProfile
  let rankedR := argsortMat rprofile
  let rankedH := argsortMat hprofile
  if residentOriented then
    let st : RoState :=
      { residentApplications := List.replicate n (-1)
        hospitalWaitingLists := List.replicate m []
        nextCurrentApplicants := List.replicate n 1 }
    let st ← roLoop rprofile hprofile rankedR rankedH c n fuel st
    roCollect rankedH indexFixer m st.hospitalWaitingLists
  else
    let st : HoState :=
      { hospitalOffers := List.replicate m (-1)
        residentWaitingLists := List.replicate n (-1)
        hospitalAcceptedOffers := List.replicate m 0
        currentOfferers := List.replicate m 1 }
    let st ← hoLoop rprofile hprofile rankedH c m fuel st
    return hoCollect indexFixer n st.residentWaitingLists

/-- `GaleShapley.scf` (lines 31-178): dimension check, then the
deferred-acceptance simulation of the selected orientation. -/
def galeShapleyScf (residentOriented : Bool) (indexFixer : ℤ) (fuel : ℕ)
    (residentProfile hospitalProfile : Mat) (c : List ℤ) :
    Except PyErr (List (ℤ × ℤ)) :=
  let n := residentProfile.length
  let m := shape1 residentProfile
  if n ≠ shape1 hospitalProfile ∨ m ≠ hospitalProfile.length then
    .error (.valueError dimErrMsg)
  else galeShapleyMain residentOriented indexFixer fuel residentProfile hospitalProfile c

/-! ### `utils.check_profile`, `utils.check_valuation_profile` and the
`profile_utils` wrapper constructors -/

/-- The parameter names in the signature `def check_profile(profile):`
(socialchoicekit/utils.py, line 3): only `profile`. -/
def checkProfileParams : List String := ["profile"]

/-- Python call semantics: calling a function whose keyword parameters are
`params` with keyword arguments `kwargs` raises `TypeError` ("got an
unexpected keyword argument") when some keyword is not a parameter. -/
def pyKwargsOk (params kwargs : List String) : Bool :=
  kwargs.all (fun k => params.contains k)

/-- Body of `utils.check_profile` (lines 20-28), reached only if the call
binds: NaN check, then the min/max rank check.  (`np.ndim == 2` holds for
every `Mat` by construction.) -/
def checkProfileBody (profile : Mat) : Except PyErr Unit :=
  if profile.any (fun row => row.any (fun v => isNan v)) then
    .error (.valueError "Profile cannot contain NaN values")
  else
    let flat := profile.flatMap id
    let vals := flat.filterMap id
    if vals.min? = some 1 ∧ vals.max? = some ((shape1 profile : ℤ) : ℚ) then
      .ok ()
    else .error (.valueError "Profile must contain exactly integers from 1 to M")

/-- A call `check_profile(arr, **kwargs)`: Python binds the arguments before
running the body, so a bad keyword raises `TypeError` first. -/
def checkProfileCall (kwargs : List String) (arr : Mat) : Except PyErr Unit :=
  if pyKwargsOk checkProfileParams kwargs then checkProfileBody arr
  else .error .typeError

/-- `utils.check_valuation_profile` (lines 30-51); the keyword
`is_complete` exists in its signature, so its calls bind. -/
def checkValuationProfile (isComplete : Bool) (vp : Mat) : Except PyErr Unit :=
  if isComplete ∧ vp.any (fun row => row.any (fun v => isNan v)) then
    .error (.valueError "Valuation profile cannot contain NaN values")
  else .ok ()

/-- `Profile.of` (profile_utils.py, lines 14-17):
`check_profile(arr, is_complete=False, is_strict=False)`. -/
def profileOf (arr : Mat) : Except PyErr Mat := do
  checkProfileCall ["is_complete", "is_strict"] arr
  return arr

/-- `StrictProfile.of` (lines 25-28). -/
def strictProfileOf (arr : Mat) : Except PyErr Mat := do
  checkProfileCall ["is_complete", "is_strict"] arr
  return arr

/-- `ProfileWithTies.of` (lines 36-39). -/
def profileWithTiesOf (arr : Mat) : Except PyErr Mat := do
  checkProfileCall ["is_complete", "is_strict"] arr
  return arr

/-- `CompleteProfile.of` (lines 47-50). -/
def completeProfileOf (arr : Mat) : Except PyErr Mat := do
  checkProfileCall ["is_complete", "is_strict"] arr
  return arr

/-- `IncompleteProfile.of` (lines 58-61). -/
def incompleteProfileOf (arr : Mat) : Except PyErr Mat := do
  checkProfileCall ["is_complete", "is_strict"] arr
  return arr

/-- `StrictCompleteProfile.of` (lines 69-72). -/
def strictCompleteProfileOf (arr : Mat) : Except PyErr Mat := do
  checkProfileCall ["is_complete", "is_strict"] arr
  return arr

/-- `StrictIncompleteProfile.of` (lines 80-83). -/
def strictIncompleteProfileOf (arr : Mat) : Except PyErr Mat := do
  checkProfileCall ["is_complete", "is_strict"] arr
  return arr

/-- `data_generation.compute_ordinal_profile` (lines 277-303): argsort the
negated cardinal profile, build the rank matrix (`0 * NaN + k` keeps NaN),
and return it through `StrictProfile.of`. -/
def computeOrdinalProfile (cardinal : Mat) : Except PyErr Mat := do
  let ranked := argsortMat (cardinal.map (fun row => row.map (fun v => v.map (· * (-1)))))
  let ans := (cardinal.zip ranked).map (fun p =>
    let row := p.1
    let order := p.2
    -- ans[agent, ranked[agent, k]] += k + 1 on a row initialised to row * 0
    (List.range row.length).map (fun j =>
      (row.getD j none).map (fun _ =>
        (((order.indexOf j : ℕ) : ℚ) + 1))))
  strictProfileOf ans

/-! ### Python slices -/

/-- Python slice `l[a:]` (clamping, negative start counts from the end). -/
def pySliceFrom (l : List α) (a : ℤ) : List α :=
  if 0 ≤ a then l.drop a.toNat else l.drop (l.length - (-a).toNat)

/-- Python slice `l[:b]` (clamping, negative stop counts from the end). -/
def pySliceTo (l : List α) (b : ℤ) : List α :=
  if 0 ≤ b then l.take b.toNat else l.take (l.length - (-b).toNat)

/-! ### `Irving.find_rotations` (lines 433-496) -/

/-- Number of `False` entries of the `visited` marker array; the measure of
the cycle-walk loop. -/
def countUnvisited (v : List Bool) : ℕ := v.count false

theorem count_false_set_true_lt {l : List Bool} {k : ℕ}
    (hk : l.get? k = some false) :
    (l.set k true).count false < l.count false := by
  induction l generalizing k with
  | nil => simp at hk
  | cons b t ih =>
    cases k with
    | zero =>
      simp only [List.get?] at hk
      cases hk
      simp [List.count_cons]
    | succ k =>
      simp only [List.get?] at hk
      have := ih hk
      cases b <;> simp [List.count_cons, this]

theorem pyGetSet_false_true {l : List Bool} {i : ℤ} {l' : List Bool}
    (hg : pyListGet l i = .ok false) (hs : pyListSet l i true = .ok l') :
    countUnvisited l' < countUnvisited l := by
  unfold pyListGet at hg
  unfold pyListSet at hs
  unfold countUnvisited
  by_cases h0 : 0 ≤ i
  · simp only [if_pos h0] at hg hs
    cases hq : l.get? i.toNat with
    | none => rw [hq] at hg; exact absurd hg (by simp)
    | some b =>
      rw [hq] at hg
      have hb : b = false := by simpa using hg
      subst hb
      have hlt : i.toNat < l.length := List.get?_eq_some.mp hq |>.1
      rw [if_pos hlt] at hs
      have hl' : l' = l.set i.toNat true := by
        have := hs
        simp at this
        exact this.symm
      subst hl'
      exact count_false_set_true_lt hq
  · simp only [if_neg h0] at hg hs
    by_cases hk : (-i).toNat ≤ l.length
    · rw [if_pos hk] at hg
      cases hq : l.get? (l.length - (-i).toNat) with
      | none => rw [hq] at hg; exact absurd hg (by simp)
      | some b =>
        rw [hq] at hg
        have hb : b = false := by simpa using hg
        subst hb
        have hpos : 0 < (-i).toNat := by omega
        rw [if_pos ⟨hk, hpos⟩] at hs
        have hl' : l' = l.set (l.length - (-i).toNat) true := by
          have := hs
          simp at this
          exact this.symm
        subst hl'
        exact count_false_set_true_lt hq
    · rw [if_neg hk] at hg
      exact absurd hg (by simp)

/-- The `while not visited[current_node]` walk of `find_rotations`
(lines 489-493): mark,读 the unique outgoing edge, append the pair
`(current, top-of-shortlist)`, move on.  Returns the final `visited`,
the node at which the walk stopped, and the accumulated `cycle` list. -/
def rotWalk (G pl1 : List (List ℤ)) (visited : List Bool) (current : ℤ)
    (cycle : List (ℤ × ℤ)) : Except PyErr (List Bool × ℤ × List (ℤ × ℤ)) :=
  match hv : pyListGet visited current with
  | .error e => .error e
  | .ok true => .ok (visited, current, cycle)
  | .ok false =>
    match hs : pyListSet visited current true with
    | .error e => .error e
    | .ok visited' =>
      match dictGet G current with
      | .error e => .error e
      | .ok row =>
        match pyListGet row 0 with
        | .error e => .error e
        | .ok nextNode =>
          match dictGet pl1 current with
          | .error e => .error e
          | .ok pli =>
            match pyListGet pli 0 with
            | .error e => .error e
            | .ok top => rotWalk G pl1 visited' nextNode (cycle ++ [(current, top)])
termination_by countUnvisited visited
decreasing_by exact pyGetSet_false_true hv hs

theorem rotWalk_count_le_aux (G pl1 : List (List ℤ)) :
    ∀ (N : ℕ) (visited : List Bool) (current : ℤ) (cycle : List (ℤ × ℤ))
      (v' : List Bool) (c' : ℤ) (cy : List (ℤ × ℤ)),
      countUnvisited visited ≤ N →
      rotWalk G pl1 visited current cycle = .ok (v', c', cy) →
      countUnvisited v' ≤ countUnvisited visited := by
  intro N
  induction N with
  | zero =>
      intro visited current cycle v' c' cy hN h
      rw [rotWalk.eq_def] at h
      split at h
      · exact absurd h (by simp)
      · simp only [Except.ok.injEq, Prod.mk.injEq] at h
        obtain ⟨h1, -, -⟩ := h
        subst h1
        exact le_refl _
      · rename_i hv
        split at h
        · exact absurd h (by simp)
        · rename_i visited' hs
          have := pyGetSet_false_true hv hs
          omega
  | succ N ih =>
      intro visited current cycle v' c' cy hN h
      rw [rotWalk.eq_def] at h
      split at h
      · exact absurd h (by simp)
      · simp only [Except.ok.injEq, Prod.mk.injEq] at h
        obtain ⟨h1, -, -⟩ := h
        subst h1
        exact le_refl _
      · rename_i hv
        split at h
        · exact absurd h (by simp)
        · rename_i visited' hs
          have hlt := pyGetSet_false_true hv hs
          split at h
          · exact absurd h (by simp)
          · split at h
            · exact absurd h (by simp)
            · split at h
              · exact absurd h (by simp)
              · split at h
                · exact absurd h (by simp)
                · have := ih visited' _ _ v' c' cy (by omega) h
                  omega

theorem rotWalk_count_le {G pl1 : List (List ℤ)} {visited : List Bool}
    {current : ℤ} {cycle : List (ℤ × ℤ)} {v' : List Bool} {c' : ℤ}
    {cy : List (ℤ × ℤ)}
    (h : rotWalk G pl1 visited current cycle = .ok (v', c', cy)) :
    countUnvisited v' ≤ countUnvisited visited :=
  rotWalk_count_le_aux G pl1 (countUnvisited visited) visited current cycle
    v' c' cy (le_refl _) h

theorem rotWalk_count_lt {G pl1 : List (List ℤ)} {visited : List Bool}
    {current : ℤ} {cycle : List (ℤ × ℤ)} {v' : List Bool} {c' : ℤ}
    {cy : List (ℤ × ℤ)}
    (hfalse : pyListGet visited current = .ok false)
    (h : rotWalk G pl1 visited current cycle = .ok (v', c', cy)) :
    countUnvisited v' < countUnvisited visited := by
  rw [rotWalk.eq_def] at h
  split at h
  · rename_i e hv
    rw [hfalse] at hv
    exact absurd hv (by simp)
  · rename_i hv
    rw [hfalse] at hv
    exact absurd hv (by simp)
  · rename_i hv
    split at h
    · exact absurd h (by simp)
    · rename_i visited' hs
      have hlt := pyGetSet_false_true hv hs
      split at h
      · exact absurd h (by simp)
      · split at h
        · exact absurd h (by simp)
        · split at h
          · exact absurd h (by simp)
          · split at h
            · exact absurd h (by simp)
            · have := rotWalk_count_le h
              omega

/-- Python `list.index`: position of the first occurrence (meaningful only
when the element occurs; `cycle.index(...)` raises `ValueError` otherwise,
which the caller below checks first). -/
def pyListIndex [DecidableEq α] (x : α) : List α → ℕ
  | [] => 0
  | y :: ys => if y = x then 0 else pyListIndex x ys + 1

/-- The `while start_point < n` sweep of `find_rotations` (lines 483-495):
walk from each unvisited start, locate the first repeated node in the walk
with `cycle.index(...)` (`ValueError` if absent), and record the cycle from
there on. -/
def rotSearch (G pl1 : List (List ℤ)) (n : ℕ) (visited : List Bool)
    (start : ℕ) (cycles : List (List (ℤ × ℤ))) :
    Except PyErr (List (List (ℤ × ℤ))) :=
  if hlt : start < n then
    match hfalse : pyListGet visited (start : ℤ) with
    | .error e => .error e
    | .ok true => rotSearch G pl1 n visited (start + 1) cycles
    | .ok false =>
      match hw : rotWalk G pl1 visited (start : ℤ) [] with
      | .error e => .error e
      | .ok (visited', current, cycle) =>
        match dictGet pl1 current with
        | .error e => .error e
        | .ok pli =>
          match pyListGet pli 0 with
          | .error e => .error e
          | .ok top =>
            if (current, top) ∈ cycle then
              rotSearch G pl1 n visited' start
                (cycles ++ [cycle.drop (pyListIndex (current, top) cycle)])
            else .error (.valueError "is not in list")
  else .ok cycles
termination_by (n - start) + countUnvisited visited
decreasing_by
  · omega
  · have := rotWalk_count_lt hfalse hw
    omega

/-- Construction of the graph `G(S)` of `find_rotations` (lines 469-476):
one out-edge from man `i` to the man `i_prime` at the LAST position of the
shortlist of the SECOND woman on `i`'s shortlist; self-loops omitted. -/
def buildG (pl1 pl2 : List (List ℤ)) : Except PyErr (List (List ℤ)) :=
  (List.range pl1.length).foldlM (fun G (i : ℕ) => do
    let li ← dictGet pl1 (i : ℤ)
    if li.length ≤ 1 then return G
    let j ← pyListGet li 1
    let lj ← dictGet pl2 j
    let ip ← pyListGet lj (-1)
    if (i : ℤ) ≠ ip then dictSet G (i : ℤ) [ip] else return G)
    (List.replicate pl1.length ([] : List ℤ))

/-- `Irving.find_rotations` (lines 433-496): asserts the two shortlist dicts
have the same size, builds `G(S)`, then sweeps for cycles. -/
def findRotations (pl1 pl2 : List (List ℤ)) :
    Except PyErr (List (List (ℤ × ℤ))) :=
  if pl1.length = pl2.length then do
    let G ← buildG pl1 pl2
    rotSearch G pl1 pl1.length (List.replicate pl1.length false) 0 []
  else .error .assertionError

/-! ### `Irving.find_all_rotations_and_eliminations` (lines 339-431) -/

/-- The inner `while k >= 0` elimination loop of lines 411-419, for woman
`wI` and the preceding man `mPrev` of the rotation.  NOTE: the source
initialises `k = len(preference_lists_2[w_i])` and immediately reads
`preference_lists_2[w_i][k]`, one past the end. -/
def elimWhile (wI mPrev : ℤ) (lst : List ℤ) (pm2 : ℤ × ℤ → ℤ)
    (emap : ℤ × ℤ → Option ℤ) (cur : ℤ) (k : ℤ) :
    Except PyErr (List ℤ × (ℤ × ℤ → ℤ) × (ℤ × ℤ → Option ℤ)) :=
  if h : k < 0 then .ok (lst, pm2, emap)
  else
    match pyListGet lst k with
    | .error e => .error e
    | .ok x =>
      if x = mPrev then .ok (pySliceTo lst k, pm2, emap)
      else
        elimWhile wI mPrev lst (Function.update pm2 (wI, x) 0)
          (Function.update emap (x, wI) (some cur)) cur (k - 1)
termination_by (k + 1).toNat
decreasing_by omega

/-- Mutable state shared by the elimination loops: the side-2 shortlists,
the side-2 indicator matrix `preference_matrix_2`, the elimination map
`eliminating_rotations_of_pair`, and the `current_rotation` counter. -/
structure ElimState where
  pl2 : List (List ℤ)
  pm2 : ℤ × ℤ → ℤ
  emap : ℤ × ℤ → Option ℤ
  currentRotation : ℤ

/-- The `for i in range(r)` elimination of one rotation (lines 407-419). -/
def elimRotation (rotation : List (ℤ × ℤ)) (st : ElimState) :
    Except PyErr ElimState :=
  (List.range rotation.length).foldlM (fun st (i : ℕ) => do
    let prev ← pyListGet rotation (((i : ℤ) - 1) % (rotation.length : ℤ))
    let curPair ← pyListGet rotation (i : ℤ)
    let wI := curPair.2
    let lst ← dictGet st.pl2 wI
    let (lst, pm2, emap) ←
      elimWhile wI prev.1 lst st.pm2 st.emap st.currentRotation (lst.length : ℤ)
    let pl2 ← dictSet st.pl2 wI lst
    return { st with pl2 := pl2, pm2 := pm2, emap := emap }) st

/-- The `for rotation in rotations` loop of lines 404-419
(`current_rotation += 1` precedes each rotation's elimination). -/
def elimRound (rotations : List (List (ℤ × ℤ))) (st : ElimState) :
    Except PyErr ElimState :=
  rotations.foldlM (fun st rotation =>
    elimRotation rotation { st with currentRotation := st.currentRotation + 1 }) st

/-- Mutable state of `find_all_rotations_and_eliminations`. -/
structure FindAllState where
  pl1 : List (List ℤ)
  pl2 : List (List ℤ)
  pm1 : ℤ × ℤ → ℤ
  pm2 : ℤ × ℤ → ℤ
  emap : ℤ × ℤ → Option ℤ
  currentRotation : ℤ
  ans : List (List (ℤ × ℤ))

/-- The `while True` round loop of lines 397-419, with explicit fuel. -/
def findAllLoop : ℕ → FindAllState → Except PyErr FindAllState
  | 0, _ => .error .fuelExhausted
  | fuel + 1, st => do
    let rots ← findRotations st.pl1 st.pl2
    if rots.length = 0 then return st
    let st := { st with ans := st.ans ++ rots }
    let es ← elimRound rots
      { pl2 := st.pl2, pm2 := st.pm2, emap := st.emap
        currentRotation := st.currentRotation }
    findAllLoop fuel
      { st with pl2 := es.pl2, pm2 := es.pm2, emap := es.emap
                currentRotation := es.currentRotation }

/-- The `while k < len(preference_lists_1[i])` loop of the trailing male
elimination (lines 422-430). -/
def maleElimWhile (i : ℤ) (lst : List ℤ) (pm1 : ℤ × ℤ → ℤ)
    (pm2 : ℤ × ℤ → ℤ) (k : ℕ) : List ℤ × (ℤ × ℤ → ℤ) :=
  if h : k < lst.length then
    let j := lst.getD k 0
    if pm2 (j, i) ≠ 0 then (pySliceFrom lst (k : ℤ), pm1)
    else maleElimWhile i lst (Function.update pm1 ((i : ℤ), j) 0) pm2 (k + 1)
  else (lst, pm1)
termination_by lst.length - k
decreasing_by omega

/-- The trailing male elimination (lines 420-430). -/
def maleElim (n : ℕ) (pl1 : List (List ℤ)) (pm1 pm2 : ℤ × ℤ → ℤ) :
    Except PyErr (List (List ℤ) × (ℤ × ℤ → ℤ)) :=
  (List.range n).foldlM (fun acc (i : ℕ) => do
    let lst ← dictGet acc.1 (i : ℤ)
    let (lst, pm1) := maleElimWhile (i : ℤ) lst acc.2 pm2 0
    let pl1 ← dictSet acc.1 (i : ℤ) lst
    return (pl1, pm1)) (pl1, pm1)

/-- The binary indicator dict `{(i, j): 1 for i in range(n) for j in pl[i]}`
with `.get(_, 0)` lookup semantics (lines 383-384). -/
def initPM (pl : List (List ℤ)) : ℤ × ℤ → ℤ := fun p =>
  match (if 0 ≤ p.1 then pl.get? p.1.toNat else none) with
  | some row => if p.2 ∈ row then 1 else 0
  | none => 0

/-- `Irving.find_all_rotations_and_eliminations` (lines 339-431).  Returns
the rotation list and the elimination map of the source's `return`, plus the
destructively updated shortlists (the caller of the source sees them through
aliasing). -/
def findAllRotationsAndEliminations (fuel : ℕ) (pl1 pl2 : List (List ℤ)) :
    Except PyErr
      (List (List (ℤ × ℤ)) × (ℤ × ℤ → Option ℤ) ×
        List (List ℤ) × List (List ℤ)) := do
  if pl1.length = pl2.length then
    let st : FindAllState :=
      { pl1 := pl1, pl2 := pl2, pm1 := initPM pl1, pm2 := initPM pl2
        emap := fun _ => none, currentRotation := -1, ans := [] }
    let st ← findAllLoop fuel st
    let (pl1', _) ← maleElim pl1.length st.pl1 st.pm1 st.pm2
    return (st.ans, st.emap, pl1', st.pl2)
  else .error .assertionError

/-! ### `Irving.rotation_weight` (lines 498-529) and the flow-network
construction inside `Irving.scf` (lines 324-335) -/

/-- Read `m[i, j]` from a 2-D numpy array. -/
def matGet (m : Mat) (i j : ℤ) : Except PyErr Val := do
  let row ← pyListGet m i
  pyListGet row j

/-- Read `m[i, j]` from an integer matrix. -/
def matGetZ (m : List (List ℤ)) (i j : ℤ) : Except PyErr ℤ := do
  let row ← pyListGet m i
  pyListGet row j

/-- NaN-propagating addition. -/
def valAdd (a b : Val) : Val :=
  match a, b with
  | some x, some y => some (x + y)
  | _, _ => none

/-- NaN-propagating subtraction. -/
def valSub (a b : Val) : Val :=
  match a, b with
  | some x, some y => some (x - y)
  | _, _ => none

/-- `Irving.rotation_weight` (lines 498-529):
`ans += vp1[m_i, w_i] - vp1[m_i, w_{i+1}]; ans -= vp2[w_i, m_i] - vp2[w_i, m_{i-1}]`
over the cyclic rotation. -/
def rotationWeight (rotation : List (ℤ × ℤ)) (vp1 vp2 : Mat) :
    Except PyErr Val :=
  (List.range rotation.length).foldlM (fun ans (i : ℕ) => do
    let r := (rotation.length : ℤ)
    let ri ← pyListGet rotation (i : ℤ)
    let rip1 ← pyListGet rotation (((i : ℤ) + 1) % r)
    let rim1 ← pyListGet rotation (((i : ℤ) - 1) % r)
    let a ← matGet vp1 ri.1 ri.2
    let b ← matGet vp1 ri.1 rip1.2
    let c ← matGet vp2 ri.2 ri.1
    let d ← matGet vp2 ri.2 rim1.1
    return valSub (valAdd ans (valSub a b)) (valSub c d)) (some 0)

/-- The flow network of `Irving.scf` (lines 324-335): `source` is the
adjacency list of node `-1`, `sink` that of node `-2` (never appended to),
and `nodes.getD pi []` that of rotation node `pi`. -/
structure FlowNetwork where
  source : List (ℤ × ℤ)
  sink : List (ℤ × ℤ)
  nodes : List (List (ℤ × ℤ))
  deriving Repr, DecidableEq

/-- One iteration of the `for pi in P_prime` loop (lines 327-333):
poset edges with capacity `sys.maxsize`, then, depending on the sign of the
rotation's weight, an edge from `pi` to the sink with capacity `int(-w)`
(negative weight) or an edge from the source to `pi` with capacity `int(w)`
(positive weight).  A NaN weight compares false against 0 on both sides and
yields neither edge. -/
def buildNetworkStep (pPrime : List (List ℤ))
    (rotations : List (List (ℤ × ℤ))) (vp1 vp2 : Mat)
    (net : FlowNetwork) (pi : ℕ) : Except PyErr FlowNetwork := do
  let edges := (pPrime.getD pi []).map (fun rho => (rho, sysMaxsize))
  let rot ← pyListGet rotations (pi : ℤ)
  let w ← rotationWeight rot vp1 vp2
  match w with
  | some q =>
    if q < 0 then
      return { net with nodes := net.nodes ++ [edges ++ [(-2, pyInt (-q))]] }
    else if 0 < q then
      return { net with
        source := net.source ++ [((pi : ℤ), pyInt q)]
        nodes := net.nodes ++ [edges] }
    else return { net with nodes := net.nodes ++ [edges] }
  | none => return { net with nodes := net.nodes ++ [edges] }

/-- The flow-network construction of `Irving.scf` (lines 324-335): iterate
`buildNetworkStep` over the rotation-poset keys `0..len(P_prime)-1` in
insertion order. -/
def buildNetwork (pPrime : List (List ℤ)) (rotations : List (List (ℤ × ℤ)))
    (vp1 vp2 : Mat) : Except PyErr FlowNetwork :=
  (List.range pPrime.length).foldlM (buildNetworkStep pPrime rotations vp1 vp2)
    { source := [], sink := [], nodes := [] }

/-! ### `Irving.scf` initial shortlists (lines 243-284) -/

/-- The truncation dict comprehensions of lines 262-266:
`pl1[i] = ranked1[i][prof1[i, j]:]` and `pl2[j] = ranked2[j][:prof2[j, i]]`
over the pairs `(i, j)` of the stable matching.  (The matching is asserted
to be a bijection right before, so the dicts have keys exactly `0..n-1`;
missing keys are modelled by the `[]` default of the initial list.) -/
def irvingTruncate (n : ℕ) (sm : List (ℤ × ℤ))
    (ranked1 ranked2 : List (List ℤ)) (prof1 prof2 : List (List ℤ)) :
    Except PyErr (List (List ℤ) × List (List ℤ)) := do
  let pl1 ← sm.foldlM (fun pl1 p => do
      let ri ← pyListGet ranked1 p.1
      let cut ← matGetZ prof1 p.1 p.2
      dictSet pl1 p.1 (pySliceFrom ri cut)) (List.replicate n ([] : List ℤ))
  let pl2 ← sm.foldlM (fun pl2 p => do
      let rj ← pyListGet ranked2 p.2
      let cut ← matGetZ prof2 p.2 p.1
      dictSet pl2 p.2 (pySliceTo rj cut)) (List.replicate n ([] : List ℤ))
  return (pl1, pl2)

/-- The "mutual filtering" loops of lines 270-284, translated bug-for-bug:
the first loop OVERWRITES `new1[i]` with `pl1[i] ++ [j]` (the ORIGINAL list
with `j` appended — `np.append` does not mutate its argument), and the
second loop keeps `i` in `new2[j]` exactly when `j` is NOT in `new1[i]`. -/
def irvingFilter (n : ℕ) (pl1 pl2 : List (List ℤ)) :
    Except PyErr (List (List ℤ) × List (List ℤ)) := do
  let new1 ← (List.range n).foldlM (fun new1 (i : ℕ) => do
      let li ← dictGet pl1 (i : ℤ)
      let cur ← li.foldlM (fun acc j => do
          let lj ← dictGet pl2 j
          return (if (i : ℤ) ∈ lj then li ++ [j] else acc)) ([] : List ℤ)
      return new1 ++ [cur]) ([] : List (List ℤ))
  let new2 ← (List.range n).foldlM (fun new2 (j : ℕ) => do
      let lj ← dictGet pl2 (j : ℤ)
      let cur ← lj.foldlM (fun acc i => do
          let ni ← dictGet new1 i
          return (if (j : ℤ) ∉ ni then acc ++ [i] else acc)) ([] : List ℤ)
      return new2 ++ [cur]) ([] : List (List ℤ))
  return (new1, new2)

/-! ### `Irving.scf` rotation-poset construction (lines 288-322) -/

/-- `rotation_of_pair` (lines 299-302): pair-to-rotation-index dict. -/
def rotationOfPairMap (rotations : List (List (ℤ × ℤ))) : ℤ × ℤ → Option ℤ :=
  rotations.enum.foldl (fun f p =>
    p.2.foldl (fun f pair => Function.update f pair (some (p.1 : ℤ))) f)
    (fun _ => none)

/-- The `P'` construction of lines 297-322.  The loop variable `rho` is only
assigned under Rule 1 or Rule 2; when neither applies, Python appends the
STALE `rho` of a previous iteration (or raises `NameError` on the first
one).  The `Option ℤ` component of the accumulator models that variable. -/
def constructPPrime (n : ℕ) (rotations : List (List (ℤ × ℤ)))
    (pl1 : List (List ℤ)) (emap : ℤ × ℤ → Option ℤ) :
    Except PyErr (List (List ℤ)) := do
  let rop := rotationOfPairMap rotations
  let init : List (List ℤ) := List.replicate rotations.length []
  let res ← (List.range n).foldlM
    (fun (acc : List (List ℤ) × Option ℤ) (i : ℕ) => do
      let li ← dictGet pl1 (i : ℤ)
      li.enum.foldlM (fun (acc : List (List ℤ) × Option ℤ) p => do
        let (index, j) := p
        if index = li.length - 1 then return acc
        match rop ((i : ℤ), j) with
        | none => return acc
        | some pi => do
          let jPrime ← pyListGet li ((index : ℤ) + 1)
          let rhoVar :=
            match rop ((i : ℤ), jPrime) with
            | some rho => some rho
            | none =>
              match emap ((i : ℤ), jPrime) with
              | some rho => some rho
              | none => acc.2
          match rhoVar with
          | none => .error .nameError
          | some rho => do
            let cur ← dictGet acc.1 pi
            let pp ← dictSet acc.1 pi (cur ++ [rho])
            return (pp, some rho)) acc) (init, (none : Option ℤ))
  return res.1

/-! ### `Irving.scf` (lines 192-337) -/

/-- Integer matrix viewed as a float matrix. -/
def intMatToMat (l : List (List ℤ)) : Mat :=
  l.map (fun r => r.map (fun z => some ((z : ℚ))))

/-- Float matrix truncated to an integer matrix (`none` is never hit on the
reachable inputs, which have passed a completeness check). -/
def matToIntMat (m : Mat) : List (List ℤ) :=
  m.map (fun r => r.map (fun v => (v.map pyInt).getD 0))

/-- `Irving.scf` (lines 192-337).  Every execution path raises `TypeError`
while preparing the ordinal profiles: a supplied profile goes through
`check_profile(profile, is_complete=True, is_strict=True)` (line 227/232), a
derived one through `compute_ordinal_profile` (which ends in
`StrictProfile.of`), and even past that, line 251 wraps the profiles in
`StrictCompleteProfile.of` — and every one of those calls passes keyword
arguments that `check_profile`'s signature does not accept.  The remainder
(lines 256-337) is translated all the same; its final statement is
`return []` (the min-cut reconstruction is left as a `TODO` in the source,
and the `ford_fulkerson` result — from `socialchoicekit/flow.py`, not under
`src/` — is discarded). -/
def irvingScf (fuel : ℕ) (vp1 vp2 : Mat) (profile1 profile2 : Option Mat) :
    Except PyErr (List (ℤ × ℤ)) := do
  checkValuationProfile true vp1
  checkValuationProfile true vp2
  let op1 ← match profile1 with
    | some p => do
        checkProfileCall ["is_complete", "is_strict"] p
        pure p
    | none => computeOrdinalProfile vp1
  let op2 ← match profile2 with
    | some p => do
        checkProfileCall ["is_complete", "is_strict"] p
        pure p
    | none => computeOrdinalProfile vp2
  let n := vp1.length
  if ¬ (shape1 vp1 = n ∧ vp2.length = n ∧ shape1 vp2 = n ∧
        op1.length = n ∧ shape1 op1 = n ∧ op2.length = n ∧ shape1 op2 = n) then
    .error .assertionError
  else do
  let ranked1 := (argsortMat vp1).map (fun row => row.map (fun k => (k : ℤ)))
  let ranked2 := (argsortMat vp2).map (fun row => row.map (fun k => (k : ℤ)))
  let prof1 := matToIntMat (minusOne op1)
  let prof2 := matToIntMat (minusOne op2)
  let w1 ← strictCompleteProfileOf op1
  let w2 ← strictCompleteProfileOf op2
  let sm ← galeShapleyScf true 0 fuel w1 w2 (List.replicate n 1)
  if ¬ (sm.length = n ∧ (sm.map Prod.fst).dedup.length = n ∧
        (sm.map Prod.snd).dedup.length = n) then
    .error .assertionError
  else do
  let (pl1, pl2) ← irvingTruncate n sm ranked1 ranked2 prof1 prof2
  let (pl1, pl2) ← irvingFilter n pl1 pl2
  let (rotations, emap, pl1, _) ← findAllRotationsAndEliminations fuel pl1 pl2
  let pPrime ← constructPPrime n rotations pl1 emap
  let _ ← buildNetwork pPrime rotations vp1 vp2
  return []

theorem except_bind_ok (a : α) (f : α → Except PyErr β) :
    (Except.ok a >>= f) = f a := rfl

theorem except_bind_error (e : PyErr) (f : α → Except PyErr β) :
    ((Except.error e : Except PyErr α) >>= f) = Except.error e := rfl

theorem exists_error_bind_left {x : Except PyErr α} {f : α → Except PyErr β}
    (h : ∃ e, x = .error e) : ∃ e, (x >>= f) = .error e := by
  obtain ⟨e, he⟩ := h
  exact ⟨e, by rw [he, except_bind_error]⟩

theorem exists_error_bind_cont {x : Except PyErr α} {f : α → Except PyErr β}
    (h : ∀ a, ∃ e, f a = .error e) : ∃ e, (x >>= f) = .error e := by
  cases x with
  | error e => exact ⟨e, rfl⟩
  | ok a => rw [except_bind_ok]; exact h a

theorem pyListIndex_lt_length [DecidableEq α] {x : α} {l : List α}
    (h : x ∈ l) : pyListIndex x l < l.length := by
  induction l with
  | nil => simp at h
  | cons y ys ih =>
    unfold pyListIndex
    by_cases hy : y = x
    · simp [hy]
    · rcases List.mem_cons.mp h with hx | hx
      · exact absurd hx.symm hy
      · simp only [if_neg hy, List.length_cons]
        exact Nat.succ_lt_succ (ih hx)

theorem rotSearch_ok_ext_aux (G pl1 : List (List ℤ)) (n : ℕ) :
    ∀ (N : ℕ) (visited : List Bool) (start : ℕ) (cycles r : List (List (ℤ × ℤ))),
      (n - start) + countUnvisited visited ≤ N →
      rotSearch G pl1 n visited start cycles = .ok r →
      ∃ extra, r = cycles ++ extra ∧ ∀ c ∈ extra, c ≠ [] := by
  intro N
  induction N with
  | zero =>
    intro visited start cycles r hN h
    rw [rotSearch.eq_def] at h
    split at h
    · rename_i hlt
      omega
    · exact ⟨[], by simpa using h.symm, by simp⟩
  | succ N ih =>
    intro visited start cycles r hN h
    rw [rotSearch.eq_def] at h
    split at h
    · rename_i hlt
      split at h
      · exact absurd h (by simp)
      · exact ih visited (start + 1) cycles r (by omega) h
      · rename_i hfalse
        split at h
        · exact absurd h (by simp)
        · rename_i visited' current cycle hw
          have hcnt := rotWalk_count_lt hfalse hw
          split at h
          · exact absurd h (by simp)
          · split at h
            · exact absurd h (by simp)
            · split at h
              · rename_i pli hpli top htop hmem
                obtain ⟨extra, hr, hex⟩ := ih visited' start _ r (by omega) h
                refine ⟨cycle.drop (pyListIndex (current, top) cycle) :: extra, ?_, ?_⟩
                · simpa using hr
                · intro c hc
                  rcases List.mem_cons.mp hc with hc | hc
                  · subst hc
                    have hidx := pyListIndex_lt_length hmem
                    intro hnil
                    rw [List.drop_eq_nil_iff_le] at hnil
                    omega
                  · exact hex c hc
              · exact absurd h (by simp)
    · exact ⟨[], by simpa using h.symm, by simp⟩

theorem findRotations_ok_nonempty {pl1 pl2 : List (List ℤ)}
    {r : List (List (ℤ × ℤ))} (h : findRotations pl1 pl2 = .ok r) :
    ∀ c ∈ r, c ≠ [] := by
  unfold findRotations at h
  split at h
  · cases hG : buildG pl1 pl2 with
    | error e => rw [hG, except_bind_error] at h; exact absurd h (by simp)
    | ok G =>
      rw [hG, except_bind_ok] at h
      obtain ⟨extra, hr, hex⟩ :=
        rotSearch_ok_ext_aux G pl1 pl1.length
          ((pl1.length - 0) + countUnvisited (List.replicate pl1.length false))
          (List.replicate pl1.length false) 0 [] r (le_refl _) h
      simpa [hr] using hex
  · exact absurd h (by simp)

theorem pyListGet_length (l : List α) :
    pyListGet l ((l.length : ℕ) : ℤ) = .error .indexError := by
  unfold pyListGet
  rw [if_pos (Int.natCast_nonneg _)]
  have : l.get? ((l.length : ℤ)).toNat = none := by
    simp [List.get?_eq_none]
  rw [this]

theorem elimWhile_at_length (wI mPrev : ℤ) (lst : List ℤ)
    (pm2 : ℤ × ℤ → ℤ) (emap : ℤ × ℤ → Option ℤ) (cur : ℤ) :
    elimWhile wI mPrev lst pm2 emap cur ((lst.length : ℕ) : ℤ) =
      .error .indexError := by
  rw [elimWhile.eq_def]
  rw [dif_neg (by omega : ¬ ((lst.length : ℕ) : ℤ) < 0)]
  rw [pyListGet_length]

theorem elimRotation_error (rotation : List (ℤ × ℤ)) (hne : rotation ≠ [])
    (st : ElimState) : ∃ e, elimRotation rotation st = .error e := by
  unfold elimRotation
  obtain ⟨p, rest, hrot⟩ := List.exists_cons_of_ne_nil hne
  subst hrot
  rw [show (p :: rest).length = rest.length + 1 from rfl,
    List.range_succ_eq_map, List.foldlM_cons]
  apply exists_error_bind_left
  apply exists_error_bind_cont
  intro prev
  apply exists_error_bind_cont
  intro curPair
  apply exists_error_bind_cont
  intro lst
  apply exists_error_bind_left
  exact ⟨.indexError, elimWhile_at_length _ _ _ _ _ _⟩

theorem elimRound_error (rotations : List (List (ℤ × ℤ)))
    (hne : rotations ≠ []) (hmem : ∀ r ∈ rotations, r ≠ [])
    (st : ElimState) : ∃ e, elimRound rotations st = .error e := by
  unfold elimRound
  obtain ⟨r0, rest, hrot⟩ := List.exists_cons_of_ne_nil hne
  subst hrot
  rw [List.foldlM_cons]
  apply exists_error_bind_left
  exact elimRotation_error r0 (hmem r0 (List.mem_cons_self r0 rest)) _

theorem findAllLoop_succ (fuel : ℕ) (st : FindAllState) :
    findAllLoop (fuel + 1) st = findAllLoop 1 st := by
  show (do
      let rots ← findRotations st.pl1 st.pl2
      if rots.length = 0 then return st
      else do
        let st := { st with ans := st.ans ++ rots }
        let es ← elimRound rots
          { pl2 := st.pl2, pm2 := st.pm2, emap := st.emap
            currentRotation := st.currentRotation }
        findAllLoop fuel
          { st with pl2 := es.pl2, pm2 := es.pm2, emap := es.emap
                    currentRotation := es.currentRotation }) =
    (do
      let rots ← findRotations st.pl1 st.pl2
      if rots.length = 0 then return st
      else do
        let st := { st with ans := st.ans ++ rots }
        let es ← elimRound rots
          { pl2 := st.pl2, pm2 := st.pm2, emap := st.emap
            currentRotation := st.currentRotation }
        findAllLoop 0
          { st with pl2 := es.pl2, pm2 := es.pm2, emap := es.emap
                    currentRotation := es.currentRotation })
  cases h : findRotations st.pl1 st.pl2 with
  | error e => simp only [except_bind_error]
  | ok rots =>
    simp only [except_bind_ok]
    by_cases hlen : rots.length = 0
    · simp only [if_pos hlen]
    · rw [if_neg hlen, if_neg hlen]
      have hne : rots ≠ [] := by
        intro hr
        rw [hr] at hlen
        simp at hlen
      obtain ⟨e, he⟩ := elimRound_error rots hne (findRotations_ok_nonempty h) _
      rw [he, except_bind_error, except_bind_error]

theorem findAll_fuel (pl1 pl2 : List (List ℤ)) (fuel : ℕ) :
    findAllRotationsAndEliminations (fuel + 1) pl1 pl2 =
      findAllRotationsAndEliminations 1 pl1 pl2 := by
  unfold findAllRotationsAndEliminations
  split
  · simp only [findAllLoop_succ]
  · rfl

/-- No `ValueError` outcome: the result is not `.error (.valueError s)` for
any message `s`.  Used to show that, once past the dimension check, the
Gale-Shapley pipeline never raises the dimension-mismatch `ValueError`. -/
def noVE (r : Except PyErr α) : Prop := ∀ s, r ≠ .error (.valueError s)

theorem noVE_pure (a : α) : noVE (pure a : Except PyErr α) := by
  intro s h
  cases h

theorem noVE_ok (a : α) : noVE (Except.ok a : Except PyErr α) := by
  intro s h
  cases h

theorem noVE_error {α : Type} {e : PyErr} (he : ∀ s, e ≠ .valueError s) :
    noVE (Except.error e : Except PyErr α) := by
  intro s h
  exact he s (by injection h)

theorem noVE_indexError : noVE (Except.error .indexError : Except PyErr α) := by
  intro s h
  simp at h

theorem noVE_keyError : noVE (Except.error .keyError : Except PyErr α) := by
  intro s h
  simp at h

theorem noVE_fuelExhausted :
    noVE (Except.error .fuelExhausted : Except PyErr α) := by
  intro s h
  simp at h

theorem noVE_bind {x : Except PyErr α} {f : α → Except PyErr β}
    (hx : noVE x) (hf : ∀ a, noVE (f a)) : noVE (x >>= f) := by
  cases x with
  | error e =>
    rw [except_bind_error]
    intro s h
    injection h with h'
    exact hx s (by rw [h'])
  | ok a => rw [except_bind_ok]; exact hf a

theorem noVE_pyListGet (l : List α) (i : ℤ) : noVE (pyListGet l i) := by
  unfold pyListGet
  split
  · split
    · exact noVE_ok _
    · exact noVE_indexError
  · split
    · split
      · exact noVE_ok _
      · exact noVE_indexError
    · exact noVE_indexError

theorem noVE_pyListSet (l : List α) (i : ℤ) (a : α) :
    noVE (pyListSet l i a) := by
  unfold pyListSet
  split
  · split
    · exact noVE_ok _
    · exact noVE_indexError
  · split
    · exact noVE_ok _
    · exact noVE_indexError

theorem noVE_dictGet (l : List α) (i : ℤ) : noVE (dictGet l i) := by
  unfold dictGet
  split
  · split
    · exact noVE_ok _
    · exact noVE_keyError
  · exact noVE_keyError

theorem noVE_heappop (heap : List ℤ) : noVE (heappop heap) := by
  unfold heappop
  split
  · exact noVE_indexError
  · split
    · exact noVE_ok _
    · exact noVE_ok _

theorem noVE_foldlM {f : β → α → Except PyErr β}
    (hf : ∀ b a, noVE (f b a)) :
    ∀ (l : List α) (init : β), noVE (List.foldlM f init l) := by
  intro l
  induction l with
  | nil => intro init; exact noVE_pure _
  | cons a as ih =>
    intro init
    rw [List.foldlM_cons]
    exact noVE_bind (hf init a) (fun b => ih b)

theorem noVE_roResidentStep (rprofile hprofile : Mat)
    (rankedR rankedH : List (List ℕ)) (c : List ℤ) (current : List ℤ)
    (st : RoState) (resident : ℕ) :
    noVE (roResidentStep rprofile hprofile rankedR rankedH c current st resident) := by
  unfold roResidentStep
  repeat'
    first
      | apply noVE_bind
      | exact noVE_pyListGet _ _
      | exact noVE_pyListSet _ _ _
      | exact noVE_heappop _
      | exact noVE_pure _
      | exact noVE_ok _
      | split
      | intro a

theorem noVE_acceptedUpdate (accepted : List ℤ) (hospital curAcc : ℤ) :
    noVE (acceptedUpdate accepted hospital curAcc) := by
  unfold acceptedUpdate
  repeat'
    first
      | apply noVE_bind
      | exact noVE_pyListGet _ _
      | exact noVE_pyListSet _ _ _
      | intro a


theorem noVE_roLoop (rprofile hprofile : Mat) (rankedR rankedH : List (List ℕ))
    (c : List ℤ) (n : ℕ) :
    ∀ (fuel : ℕ) (st : RoState),
      noVE (roLoop rprofile hprofile rankedR rankedH c n fuel st) := by
  intro fuel
  induction fuel with
  | zero => intro st; exact noVE_fuelExhausted
  | succ fuel ih =>
    intro st
    simp only [roLoop]
    split
    · exact noVE_pure _
    · apply noVE_bind
      · exact noVE_pure _
      · intro a
        apply noVE_bind
        · apply noVE_foldlM
          intro b i
          exact noVE_roResidentStep _ _ _ _ _ _ _ _
        · intro st'
          exact ih _

theorem noVE_roCollect (rankedH : List (List ℕ)) (fx : ℤ) (m : ℕ)
    (waiting : List (List ℤ)) : noVE (roCollect rankedH fx m waiting) := by
  unfold roCollect
  apply noVE_foldlM
  intro ans hospital
  apply noVE_foldlM
  intro ans2 residentRank
  repeat'
    first
      | apply noVE_bind
      | exact noVE_pyListGet _ _
      | exact noVE_pure _
      | intro a


theorem noVE_hoMarkUndersubscribed (st : HoState) (hospital : ℕ) (hv : Val) :
    noVE (hoMarkUndersubscribed st hospital hv) := by
  unfold hoMarkUndersubscribed
  split
  · exact noVE_bind (noVE_pyListSet _ _ _) fun co => noVE_pure _
  · exact noVE_pure _

theorem noVE_hoAcceptDecision (rRow : List Val) (rv : Val) (curAcc : ℤ) :
    noVE (hoAcceptDecision rRow rv curAcc) := by
  unfold hoAcceptDecision
  split
  · exact noVE_pure _
  · exact noVE_bind (noVE_pyListGet _ _) fun rvCur => noVE_pure _

theorem noVE_hoHospitalStep (rprofile hprofile : Mat)
    (rankedH : List (List ℕ)) (st : HoState) (hospital : ℕ) :
    noVE (hoHospitalStep rprofile hprofile rankedH st hospital) := by
  unfold hoHospitalStep
  refine noVE_bind (noVE_pyListGet _ _) fun cur => ?_
  split
  · exact noVE_pure _
  refine noVE_bind (noVE_pure _) fun u1 => ?_
  refine noVE_bind (noVE_pyListGet _ _) fun last => ?_
  refine noVE_bind (noVE_pyListGet _ _) fun rankedRow => ?_
  refine noVE_bind (noVE_pyListGet _ _) fun nextResident => ?_
  refine noVE_bind (noVE_pyListGet _ _) fun hRow => ?_
  refine noVE_bind (noVE_pyListGet _ _) fun hv => ?_
  refine noVE_bind (noVE_hoMarkUndersubscribed _ _ _) fun st1 => ?_
  refine noVE_bind (noVE_pyListSet _ _ _) fun offers => ?_
  refine noVE_bind (noVE_pyListGet _ _) fun rRow => ?_
  refine noVE_bind (noVE_pyListGet _ _) fun rv => ?_
  split
  · exact noVE_pure _
  refine noVE_bind (noVE_pure _) fun u2 => ?_
  refine noVE_bind (noVE_pyListGet _ _) fun curAcc => ?_
  refine noVE_bind (noVE_hoAcceptDecision _ _ _) fun accept => ?_
  split
  · exact noVE_bind (noVE_acceptedUpdate _ _ _) fun acc =>
      noVE_bind (noVE_pyListSet _ _ _) fun rwl => noVE_pure _
  · exact noVE_pure _

theorem noVE_hoLoop (rprofile hprofile : Mat) (rankedH : List (List ℕ))
    (c : List ℤ) (m : ℕ) :
    ∀ (fuel : ℕ) (st : HoState),
      noVE (hoLoop rprofile hprofile rankedH c m fuel st) := by
  intro fuel
  induction fuel with
  | zero => intro st; exact noVE_fuelExhausted
  | succ fuel ih =>
    intro st
    simp only [hoLoop]
    split
    · exact noVE_pure _
    · refine noVE_bind (noVE_pure _) fun u => ?_
      refine noVE_bind ?_ fun st' => ih _
      apply noVE_foldlM
      intro b i
      exact noVE_hoHospitalStep _ _ _ _ _

theorem noVE_galeShapleyMain (ro : Bool) (fx : ℤ) (fuel : ℕ) (rp hp : Mat)
    (c : List ℤ) : noVE (galeShapleyMain ro fx fuel rp hp c) := by
  simp only [galeShapleyMain]
  split
  · refine noVE_bind ?_ fun st => noVE_roCollect _ _ _ _
    apply noVE_roLoop
  · refine noVE_bind ?_ fun st => noVE_pure _
    apply noVE_hoLoop

/-- The sink-side edge list a rotation of weight `w` contributes to its own
adjacency list (lines 330-331): `[(-2, int(-w))]` for negative weight,
nothing otherwise (NaN compares false on both sides). -/
def sinkEdgeOf (w : Val) : List (ℤ × ℤ) :=
  match w with
  | some q => if q < 0 then [((-2 : ℤ), pyInt (-q))] else []
  | none => []

/-- The source-side entry a rotation of weight `w` contributes to the
source's adjacency list (lines 332-333): `[(pi, int(w))]` for positive
weight, nothing otherwise. -/
def srcEntryOf (k : ℕ) (w : Val) : List (ℤ × ℤ) :=
  match w with
  | some q => if 0 < q then [((k : ℤ), pyInt q)] else []
  | none => []

theorem buildNetworkGo (pPrime : List (List ℤ))
    (rotations : List (List (ℤ × ℤ))) (vp1 vp2 : Mat) :
    ∀ (k : ℕ) (net0 net : FlowNetwork),
      (List.range k).foldlM (buildNetworkStep pPrime rotations vp1 vp2) net0 = .ok net →
      net.sink = net0.sink ∧
      ∃ newRows newSrc,
        net.nodes = net0.nodes ++ newRows ∧
        net.source = net0.source ++ newSrc ∧
        newRows.length = k ∧
        (∀ pi, pi < k →
          ∃ rot w, pyListGet rotations (pi : ℤ) = .ok rot ∧
            rotationWeight rot vp1 vp2 = .ok w ∧
            newRows.getD pi [] =
              (pPrime.getD pi []).map (fun rho => (rho, sysMaxsize)) ++ sinkEdgeOf w) ∧
        (∀ x cap, (x, cap) ∈ newSrc ↔
          ∃ pi : ℕ, pi < k ∧ x = (pi : ℤ) ∧
            ∃ rot q, pyListGet rotations (pi : ℤ) = .ok rot ∧
              rotationWeight rot vp1 vp2 = .ok (some q) ∧ 0 < q ∧ cap = pyInt q) := by
  intro k
  induction k with
  | zero =>
    intro net0 net h
    have hnet : net0 = net := by simpa [pure, Except.pure] using h
    subst hnet
    refine ⟨rfl, [], [], by simp, by simp, rfl, by omega, ?_⟩
    intro x cap
    simp
  | succ k ih =>
    intro net0 net h
    rw [List.range_succ, List.foldlM_append] at h
    cases hmid : (List.range k).foldlM (buildNetworkStep pPrime rotations vp1 vp2) net0 with
    | error e => rw [hmid, except_bind_error] at h; exact absurd h (by simp)
    | ok mid =>
      rw [hmid, except_bind_ok] at h
      obtain ⟨hsink, newRows, newSrc, hnodes, hsrc, hlen, hrows, hiff⟩ := ih net0 mid hmid
      have hstep : buildNetworkStep pPrime rotations vp1 vp2 mid k = .ok net := by
        simp only [List.foldlM_cons, List.foldlM_nil, bind_pure] at h
        exact h
      unfold buildNetworkStep at hstep
      cases hrot : pyListGet rotations (k : ℤ) with
      | error e => rw [hrot, except_bind_error] at hstep; exact absurd hstep (by simp)
      | ok rot =>
        rw [hrot, except_bind_ok] at hstep
        cases hw : rotationWeight rot vp1 vp2 with
        | error e => rw [hw, except_bind_error] at hstep; exact absurd hstep (by simp)
        | ok w =>
          rw [hw, except_bind_ok] at hstep
          -- in every branch: nodes gain one row, source gains an entry only
          -- for strictly positive weight
          have main :
              net.sink = mid.sink ∧
              net.nodes = mid.nodes ++
                [(pPrime.getD k []).map (fun rho => (rho, sysMaxsize)) ++ sinkEdgeOf w] ∧
              net.source = mid.source ++ srcEntryOf k w := by
            cases w with
            | none =>
              have hne : net = { mid with nodes := mid.nodes ++
                  [(pPrime.getD k []).map (fun rho => (rho, sysMaxsize))] } :=
                (Except.ok.inj hstep).symm
              subst hne
              exact ⟨rfl, by simp [sinkEdgeOf], by simp [srcEntryOf]⟩
            | some q =>
              by_cases hq : q < 0
              · have hne : net = { mid with nodes := mid.nodes ++
                    [(pPrime.getD k []).map (fun rho => (rho, sysMaxsize)) ++
                      [((-2 : ℤ), pyInt (-q))]] } := by
                  dsimp only [] at hstep
                  simp only [if_pos hq] at hstep
                  exact (Except.ok.inj hstep).symm
                subst hne
                exact ⟨rfl, by simp [sinkEdgeOf, if_pos hq],
                  by simp [srcEntryOf, lt_asymm hq]⟩
              · by_cases hq2 : 0 < q
                · have hne : net = { mid with
                      source := mid.source ++ [((k : ℤ), pyInt q)],
                      nodes := mid.nodes ++
                        [(pPrime.getD k []).map (fun rho => (rho, sysMaxsize))] } := by
                    dsimp only [] at hstep
                    simp only [if_neg hq, if_pos hq2] at hstep
                    exact (Except.ok.inj hstep).symm
                  subst hne
                  exact ⟨rfl, by simp [sinkEdgeOf, if_neg hq],
                    by simp [srcEntryOf, hq2]⟩
                · have hne : net = { mid with nodes := mid.nodes ++
                      [(pPrime.getD k []).map (fun rho => (rho, sysMaxsize))] } := by
                    dsimp only [] at hstep
                    simp only [if_neg hq, if_neg hq2] at hstep
                    exact (Except.ok.inj hstep).symm
                  subst hne
                  exact ⟨rfl, by simp [sinkEdgeOf, if_neg hq],
                    by simp [srcEntryOf, hq2]⟩
          obtain ⟨hs2, hn2, hsrc2⟩ := main
          refine ⟨by rw [hs2, hsink], newRows ++
            [(pPrime.getD k []).map (fun rho => (rho, sysMaxsize)) ++ sinkEdgeOf w],
            newSrc ++ srcEntryOf k w, ?_, ?_, ?_, ?_, ?_⟩
          · simp [hn2, hnodes]
          · simp [hsrc2, hsrc]
          · simp [hlen]
          · intro pi hpi
            by_cases hk : pi < k
            · obtain ⟨rot2, w2, h1, h2, h3⟩ := hrows pi hk
              refine ⟨rot2, w2, h1, h2, ?_⟩
              rw [← h3]
              rw [List.getD_append]
              omega
            · have hpik : pi = k := by omega
              subst hpik
              refine ⟨rot, w, hrot, hw, ?_⟩
              rw [List.getD_append_right]
              · simp [hlen]
              · omega
          · intro x cap
            constructor
            · intro hmem
              rcases List.mem_append.mp hmem with hmem | hmem
              · obtain ⟨pi, hpi, hx, rest⟩ := (hiff x cap).mp hmem
                exact ⟨pi, by omega, hx, rest⟩
              · cases w with
                | none => simp [srcEntryOf] at hmem
                | some q =>
                  simp only [srcEntryOf] at hmem
                  by_cases hq2 : 0 < q
                  · rw [if_pos hq2] at hmem
                    simp at hmem
                    exact ⟨k, by omega, hmem.1, rot, q, hrot, hw, hq2, hmem.2⟩
                  · rw [if_neg hq2] at hmem
                    simp at hmem
            · rintro ⟨pi, hpi, hx, rot2, q2, h1, h2, h3, h4⟩
              by_cases hk : pi < k
              · exact List.mem_append.mpr (.inl ((hiff x cap).mpr
                  ⟨pi, hk, hx, rot2, q2, h1, h2, h3, h4⟩))
              · have hpik : pi = k := by omega
                subst hpik
                rw [hrot] at h1
                have hrr : rot2 = rot := by simpa using h1.symm
                subst hrr
                rw [hw] at h2
                have hww : w = some q2 := by simpa using h2
                subst hww
                refine List.mem_append.mpr (.inr ?_)
                simp only [srcEntryOf]
                rw [if_pos h3]
                simp [hx, h4]

theorem pyInt_intCast (z : ℤ) : pyInt ((z : ℚ)) = z := by
  unfold pyInt
  split
  · exact Int.floor_intCast z
  · exact Int.ceil_intCast z

theorem pyListGet_nonneg {l : List α} {i : ℤ} (d : α) (h0 : 0 ≤ i)
    (hlt : i.toNat < l.length) : pyListGet l i = .ok (l.getD i.toNat d) := by
  unfold pyListGet
  rw [if_pos h0]
  have : l.get? i.toNat = some (l.getD i.toNat d) := by
    rw [List.getD_eq_getElem l d hlt]
    exact List.get?_eq_get hlt
  rw [this]

theorem pyListSet_nonneg {l : List α} {i : ℤ} (a : α) (h0 : 0 ≤ i)
    (hlt : i.toNat < l.length) : pyListSet l i a = .ok (l.set i.toNat a) := by
  unfold pyListSet
  rw [if_pos h0, if_pos hlt]

theorem pyListGet_negOne {l : List α} (d : α) (hne : l ≠ []) :
    pyListGet l (-1) = .ok (l.getD (l.length - 1) d) := by
  unfold pyListGet
  have hlen : 0 < l.length := List.length_pos.mpr hne
  rw [if_neg (by omega : ¬ (0 : ℤ) ≤ -1)]
  have h1 : ((-(-1 : ℤ)).toNat) = 1 := rfl
  rw [h1, if_pos (by omega : 1 ≤ l.length)]
  have : l.get? (l.length - 1) = some (l.getD (l.length - 1) d) := by
    rw [List.getD_eq_getElem l d (by omega)]
    exact List.get?_eq_get (by omega)
  rw [this]

theorem pyListSet_negOne {l : List α} (a : α) (hne : l ≠ []) :
    pyListSet l (-1) a = .ok (l.set (l.length - 1) a) := by
  unfold pyListSet
  have hlen : 0 < l.length := List.length_pos.mpr hne
  rw [if_neg (by omega : ¬ (0 : ℤ) ≤ -1)]
  have h1 : ((-(-1 : ℤ)).toNat) = 1 := rfl
  rw [h1]
  rw [if_pos ⟨by omega, by omega⟩]

theorem acceptedUpdate_firstOffer (accepted : List ℤ) (hospital : ℤ)
    (h0 : 0 ≤ hospital) (hlt : hospital.toNat < accepted.length) :
    acceptedUpdate accepted hospital (-1) =
      .ok ((accepted.set hospital.toNat (accepted.getD hospital.toNat 0 + 1)).set
        (accepted.length - 1)
        ((accepted.set hospital.toNat (accepted.getD hospital.toNat 0 + 1)).getD
          (accepted.length - 1) 0 - 1)) := by
  unfold acceptedUpdate
  rw [pyListGet_nonneg 0 h0 hlt, except_bind_ok,
    pyListSet_nonneg _ h0 hlt, except_bind_ok]
  have hpos : 0 < (accepted.set hospital.toNat
      (accepted.getD hospital.toNat 0 + 1)).length := by
    rw [List.length_set]
    omega
  have hne := List.length_pos.mp hpos
  rw [pyListGet_negOne 0 hne, except_bind_ok]
  rw [pyListSet_negOne _ hne]
  simp

/-! ### Shared helper equalities for the wrapper constructors -/

theorem checkProfileCall_kwargs (arr : Mat) :
    checkProfileCall ["is_complete", "is_strict"] arr = .error .typeError := rfl

theorem computeOrdinalProfile_typeError (m : Mat) :
    computeOrdinalProfile m = .error .typeError := rfl

/-! ### Concrete instances used by the claim theorems -/

/-- Shorthand: an integer as a (non-NaN) numpy float value. -/
def qv (z : ℤ) : Val := some ((z : ℚ))

/-- 2×2 cardinal profile of side 1: both men prefer woman 0. -/
def vpA1 : Mat := [[qv 2, qv 1], [qv 2, qv 1]]

/-- 2×2 cardinal profile of side 2: both women prefer man 1. -/
def vpA2 : Mat := [[qv 1, qv 2], [qv 1, qv 2]]

/-- Ordinal profile consistent with `vpA1`. -/
def ordA1 : List (List ℤ) := [[1, 2], [1, 2]]

/-- Ordinal profile consistent with `vpA2`. -/
def ordA2 : List (List ℤ) := [[2, 1], [2, 1]]

/-- `np.argsort(vpA1, axis=1)` as used on line 244 (ascending by valuation,
so LEAST preferred first). -/
def rankedA1 : List (List ℤ) :=
  (argsortMat vpA1).map (fun row => row.map (fun k => (k : ℤ)))

/-- `np.argsort(vpA2, axis=1)`. -/
def rankedA2 : List (List ℤ) :=
  (argsortMat vpA2).map (fun row => row.map (fun k => (k : ℤ)))

/-- `ordA1 - 1` (0-indexed ranks, line 246). -/
def profA1 : List (List ℤ) := ordA1.map (fun r => r.map (· - 1))

/-- `ordA2 - 1`. -/
def profA2 : List (List ℤ) := ordA2.map (fun r => r.map (· - 1))

/-- C2 resident profile: two residents, both prefer hospital 2 over 1. -/
def rpC2 : Mat := [[qv 2, qv 1], [qv 2, qv 1]]

/-- C2 hospital profile: both hospitals rank resident 1 first and find
resident 2 unacceptable (NaN). -/
def hpC2 : Mat := [[qv 1, none], [qv 1, none]]

/-- C10 resident profile: one resident who accepts only hospital 1. -/
def rpC10 : Mat := [[qv 1, none]]

/-- C10 hospital profile: hospital 1 ranks the resident first, hospital 2
finds them unacceptable. -/
def hpC10 : Mat := [[qv 1], [none]]

/-- Side-1 ranked ordinal matrix of the 8×8 Irving et al. (1987) instance
(test fixture `profiles_2`, 1-based). -/
def ranked8_1 : List (List ℤ) :=
  [[3, 1, 5, 7, 4, 2, 8, 6], [6, 1, 3, 4, 8, 7, 5, 2], [7, 4, 3, 6, 5, 1, 2, 8],
   [5, 3, 8, 2, 6, 1, 4, 7], [4, 1, 2, 8, 7, 3, 6, 5], [6, 2, 5, 7, 8, 4, 3, 1],
   [7, 8, 1, 6, 2, 3, 4, 5], [2, 6, 7, 1, 8, 3, 4, 5]]

/-- Side-2 ranked ordinal matrix of the 8×8 fixture. -/
def ranked8_2 : List (List ℤ) :=
  [[4, 3, 8, 1, 2, 5, 7, 6], [3, 7, 5, 8, 6, 4, 1, 2], [7, 5, 8, 3, 6, 2, 1, 4],
   [6, 4, 2, 7, 3, 1, 5, 8], [8, 7, 1, 5, 6, 4, 3, 1], [5, 4, 7, 6, 2, 8, 3, 1],
   [1, 4, 5, 6, 2, 8, 3, 7], [2, 5, 4, 3, 7, 8, 1, 6]]

/-- The fixture's conversion `np.argsort(ranked - 1, axis=1) + 1`
(test lines 137-144). -/
def fixtureOrdinal (r : List (List ℤ)) : List (List ℤ) :=
  (argsortMat (intMatToMat (r.map (fun row => row.map (· - 1))))).map
    (fun row => row.map (fun k => (k : ℤ) + 1))

/-- The fixture shortlists `initial_preference_lists_2` of side 1,
0-indexed (test lines 148-157). -/
def fixPl1 : List (List ℤ) :=
  [[2, 0, 4, 6, 3], [0, 2, 3, 7, 6], [6, 3, 2, 0, 1, 7], [4, 7, 5, 0, 3, 6],
   [3, 1, 7, 6, 2, 5, 4], [5, 4, 6, 3, 2], [7, 5, 1, 2, 3, 4], [1, 6, 0, 2, 4]]

/-- The fixture shortlists of side 2, 0-indexed (test lines 159-168). -/
def fixPl2 : List (List ℤ) :=
  [[3, 2, 7, 0, 1], [2, 6, 4, 7], [6, 4, 7, 2, 5, 1, 0], [5, 3, 1, 6, 2, 0, 4],
   [7, 6, 0, 4, 5, 3], [4, 3, 6, 5], [0, 3, 4, 5, 1, 7, 2], [1, 4, 3, 2, 6]]

/-- C5 valuation profile of side 1 making the single rotation's weight -2. -/
def c5vpNeg : Mat := [[qv 0, qv 1], [qv 1, qv 0]]

/-- C5 valuation profile of side 1 making the single rotation's weight +2. -/
def c5vpPos : Mat := [[qv 1, qv 0], [qv 0, qv 1]]

/-- C5 all-zero valuation profile of side 2. -/
def c5vpZ : Mat := [[qv 0, qv 0], [qv 0, qv 0]]

/-- The spec's notion of mutually consistent shortlists: `j` stands on man
`i`'s list exactly when `i` stands on woman `j`'s list. -/
def mutuallyConsistent (l1 l2 : List (List ℤ)) : Bool :=
  (List.range l1.length).all (fun i =>
    (l1.getD i []).all (fun j =>
      decide ((i : ℤ) ∈ (if 0 ≤ j then l2.getD j.toNat [] else [])))) &&
  (List.range l2.length).all (fun j =>
    (l2.getD j []).all (fun i =>
      decide ((j : ℤ) ∈ (if 0 ≤ i then l1.getD i.toNat [] else []))))

/-- The spec's capacity-respect property (8-CAPACITY) for a one-indexed
assignment list: every hospital receives at most its capacity. -/
def respectsCapacities (assignment : List (ℤ × ℤ)) (c : List ℤ) : Bool :=
  (List.range c.length).all (fun h =>
    decide (((assignment.filter (fun p => p.2 = (h : ℤ) + 1)).length : ℤ) ≤
      c.getD h 0))
/-! ### Fixture ordinal profiles -/

/-- The fixture's side-1 ordinal profile (`ordinal_profile_1 + 1`,
test line 144). -/
def ord8_1 : List (List ℤ) := fixtureOrdinal ranked8_1

/-- The fixture's side-2 ordinal profile. -/
def ord8_2 : List (List ℤ) := fixtureOrdinal ranked8_2

/-! ### Claim theorems -/

/-- C1: the claim says `Irving.scf` returns the welfare-maximizing stable
matching for every pair of complete cardinal profiles with consistent
strict complete ordinal profiles.  Refuted on a well-formed 2×2 instance:
with supplied ordinal profiles the call raises `TypeError` (the profile
wrapper passes `is_complete`/`is_strict` keywords that
`utils.check_profile` does not accept), and likewise with derived
profiles (`compute_ordinal_profile` ends in `StrictProfile.of`), so
`Irving.scf` never returns a matching — and past the raise its body would
end in `return []` (line 337, a TODO) anyway. -/
theorem C1_irving_scf_never_returns_matching :
    irvingScf 10 vpA1 vpA2 (some (intMatToMat ordA1)) (some (intMatToMat ordA2)) =
      .error .typeError ∧
    irvingScf 10 vpA1 vpA2 none none = .error .typeError :=
  ⟨rfl, rfl⟩

unseal Rat.add Rat.sub Rat.mul in
/-- C2: hospital-oriented `GaleShapley.scf` violates part (b) of the
claim.  With two residents that both rank hospital 2 first, hospitals
accepting only resident 1, and capacities `[1, 1]`, the code returns
`[(1, 2), (2, 2)]`: hospital 2 (capacity 1) receives BOTH residents.  The
missing `continue` after `current_offerers[hospital] = 2` (line 156) lets
an exhausted hospital keep offering, and line 169's decrement at the
sentinel index `-1` corrupts the accepted-offer counters that drive the
loop. -/
theorem C2_hospital_capacity_violated :
    galeShapleyScf false 1 10 rpC2 hpC2 [1, 1] = .ok [(1, 2), (2, 2)] ∧
    respectsCapacities [(1, 2), (2, 2)] [1, 1] = false :=
  ⟨rfl, by decide⟩

/-- C3: every profile wrapper constructor raises `TypeError` on every
input array, because each calls `utils.check_profile` with
`is_complete`/`is_strict` keyword arguments while `check_profile(profile)`
accepts only `profile`; consequently `Irving.scf` raises `TypeError`
whenever an ordinal profile is passed as `profile_1` or as `profile_2`
(once the valuation profiles pass the NaN check that precedes the profile
handling; with `profile_1 = None` the profile derived for side 1 goes
through `StrictProfile.of` and raises the same `TypeError` before
`profile_2` is even examined). -/
theorem C3_wrapper_constructors_type_error :
    (∀ arr : Mat, profileOf arr = .error .typeError) ∧
    (∀ arr : Mat, strictProfileOf arr = .error .typeError) ∧
    (∀ arr : Mat, profileWithTiesOf arr = .error .typeError) ∧
    (∀ arr : Mat, completeProfileOf arr = .error .typeError) ∧
    (∀ arr : Mat, incompleteProfileOf arr = .error .typeError) ∧
    (∀ arr : Mat, strictCompleteProfileOf arr = .error .typeError) ∧
    (∀ arr : Mat, strictIncompleteProfileOf arr = .error .typeError) ∧
    (∀ (fuel : ℕ) (vp1 vp2 p1 : Mat) (p2 : Option Mat),
      checkValuationProfile true vp1 = .ok () →
      checkValuationProfile true vp2 = .ok () →
      irvingScf fuel vp1 vp2 (some p1) p2 = .error .typeError) ∧
    (∀ (fuel : ℕ) (vp1 vp2 p2 : Mat),
      checkValuationProfile true vp1 = .ok () →
      checkValuationProfile true vp2 = .ok () →
      irvingScf fuel vp1 vp2 none (some p2) = .error .typeError) := by
  refine ⟨fun arr => rfl, fun arr => rfl, fun arr => rfl, fun arr => rfl,
    fun arr => rfl, fun arr => rfl, fun arr => rfl, ?_, ?_⟩
  · intro fuel vp1 vp2 p1 p2 h1 h2
    unfold irvingScf
    rw [h1, except_bind_ok, h2, except_bind_ok]
    rfl
  · intro fuel vp1 vp2 p2 h1 h2
    unfold irvingScf
    rw [h1, except_bind_ok, h2, except_bind_ok]
    rfl

unseal Rat.add Rat.sub Rat.mul heapSiftdown heapSiftupLoop rotWalk rotSearch elimWhile in
/-- C4: on the 8×8 Irving et al. (1987) fixture, resident-oriented
Gale-Shapley with unit capacities yields exactly the claimed male-optimal
matching (the returned list is a permutation of the claimed set), and
`find_rotations` on the fixture shortlists yields exactly the 3 claimed
first-round rotations; but `find_all_rotations_and_eliminations` raises
`IndexError` instead of returning 10 rotations across all rounds: the
elimination's inner while-loop initialises
`k = len(preference_lists_2[w_i])` and immediately reads index `k`, one
past the end. -/
theorem C4_fixture_regression :
    galeShapleyScf true 0 50 (intMatToMat ord8_1) (intMatToMat ord8_2)
        [1, 1, 1, 1, 1, 1, 1, 1] =
      .ok [(1, 0), (7, 1), (0, 2), (4, 3), (3, 4), (5, 5), (2, 6), (6, 7)] ∧
    ([((1 : ℤ), (0 : ℤ)), (7, 1), (0, 2), (4, 3), (3, 4), (5, 5), (2, 6), (6, 7)]).Perm
      [(0, 2), (1, 0), (2, 6), (3, 4), (4, 3), (5, 5), (6, 7), (7, 1)] ∧
    findRotations fixPl1 fixPl2 =
      .ok [[(0, 2), (1, 0)], [(2, 6), (4, 3), (7, 1)], [(3, 4), (6, 7), (5, 5)]] ∧
    findAllRotationsAndEliminations 20 fixPl1 fixPl2 = .error .indexError :=
  ⟨rfl, by decide, rfl, rfl⟩

unseal Rat.add Rat.sub Rat.mul in
/-- C5 counterexample: a rotation of weight -2 gets NO edge from the
source (the claim's `source → negative-weight rotation` edge of capacity
`|-2| = 2` is absent — the source adjacency list is empty); instead the
rotation's own adjacency list carries the edge `(-2, 2)` to the sink
node. -/
theorem C5_counterexample :
    rotationWeight [(0, 0), (1, 1)] c5vpNeg c5vpZ = .ok (some (-2)) ∧
    buildNetwork [[]] [[(0, 0), (1, 1)]] c5vpNeg c5vpZ =
      .ok (FlowNetwork.mk [] [] [[((-2 : ℤ), (2 : ℤ))]]) ∧
    ((0 : ℤ), (2 : ℤ)) ∉ (FlowNetwork.mk [] [] [[((-2 : ℤ), (2 : ℤ))]]).source ∧
    ((-2 : ℤ), (2 : ℤ)) ∈
      (FlowNetwork.mk [] [] [[((-2 : ℤ), (2 : ℤ))]]).nodes.getD 0 [] :=
  ⟨rfl, rfl, by simp, by simp⟩

/-- C5 (amended): in the flow network `Irving.scf` builds over the
rotation poset, the sink's own adjacency list stays empty; there is one
adjacency row per rotation-poset key; row `pi` consists of the poset
edges `pi → rho` with capacity `sys.maxsize` followed, exactly when the
rotation's weight is NEGATIVE, by an edge `(-2, int(-w))` to the sink
node; and the source's adjacency list holds `(pi, int(w))` exactly for
the POSITIVE-weight rotations (zero or NaN weight gets neither edge).
For an integer weight `z` the capacities are exact: `z < 0` puts
`(-2, -z)` in row `pi`, and `z > 0` puts `(pi, z)` on the source.  The
spec has the two weight directions swapped. -/
theorem C5_network_construction (pPrime : List (List ℤ))
    (rotations : List (List (ℤ × ℤ))) (vp1 vp2 : Mat) (net : FlowNetwork)
    (hnet : buildNetwork pPrime rotations vp1 vp2 = .ok net) :
    net.sink = [] ∧
    net.nodes.length = pPrime.length ∧
    (∀ pi, pi < pPrime.length →
      ∃ rot w, pyListGet rotations ((pi : ℕ) : ℤ) = .ok rot ∧
        rotationWeight rot vp1 vp2 = .ok w ∧
        net.nodes.getD pi [] =
          (pPrime.getD pi []).map (fun rho => (rho, sysMaxsize)) ++ sinkEdgeOf w) ∧
    (∀ x cap, (x, cap) ∈ net.source ↔
      ∃ pi : ℕ, pi < pPrime.length ∧ x = (pi : ℤ) ∧
        ∃ rot q, pyListGet rotations ((pi : ℕ) : ℤ) = .ok rot ∧
          rotationWeight rot vp1 vp2 = .ok (some q) ∧ 0 < q ∧ cap = pyInt q) ∧
    (∀ (pi : ℕ) (rot : List (ℤ × ℤ)) (z : ℤ), pi < pPrime.length →
      pyListGet rotations ((pi : ℕ) : ℤ) = .ok rot →
      rotationWeight rot vp1 vp2 = .ok (some ((z : ℚ))) →
      (z < 0 → ((-2 : ℤ), -z) ∈ net.nodes.getD pi []) ∧
      (0 < z → ((pi : ℤ), z) ∈ net.source)) := by
  unfold buildNetwork at hnet
  obtain ⟨hsink, newRows, newSrc, hnodes, hsrc, hlen, hrows, hiff⟩ :=
    buildNetworkGo pPrime rotations vp1 vp2 pPrime.length _ net hnet
  have hnodes2 : net.nodes = newRows := by simpa using hnodes
  have hsrc2 : net.source = newSrc := by simpa using hsrc
  have hsink2 : net.sink = [] := by simpa using hsink
  refine ⟨hsink2, ?_, ?_, ?_, ?_⟩
  · rw [hnodes2]
    exact hlen
  · intro pi hpi
    rw [hnodes2]
    exact hrows pi hpi
  · intro x cap
    rw [hsrc2]
    exact hiff x cap
  · intro pi rot z hpi hget hw
    constructor
    · intro hzneg
      obtain ⟨rot2, w2, hget2, hw2, hrow⟩ := hrows pi hpi
      rw [hget] at hget2
      have hr : rot2 = rot := (Except.ok.inj hget2).symm
      subst hr
      rw [hw] at hw2
      have hwq : w2 = some ((z : ℚ)) := (Except.ok.inj hw2).symm
      subst hwq
      rw [hnodes2, hrow]
      have hq : ((z : ℚ)) < 0 := by exact_mod_cast hzneg
      refine List.mem_append.mpr (Or.inr ?_)
      have hcast : (-((z : ℚ))) = (((-z : ℤ)) : ℚ) := by push_cast; ring
      simp only [sinkEdgeOf, if_pos hq, hcast, pyInt_intCast]
      exact List.mem_singleton.mpr rfl
    · intro hzpos
      rw [hsrc2]
      refine (hiff ((pi : ℕ) : ℤ) z).mpr ?_
      exact ⟨pi, hpi, rfl, rot, (z : ℚ), hget, hw, by exact_mod_cast hzpos,
        (pyInt_intCast z).symm⟩

unseal Rat.add Rat.sub Rat.mul in
/-- C5 witness: the characterization applied to a concrete one-rotation
instance of weight +2, whose network is `.ok ⟨[(0, 2)], [], [[]]⟩`: the
positive-weight rotation gets the source edge `(0, 2)`. -/
theorem C5_network_construction_witness :
    buildNetwork [[]] [[(0, 0), (1, 1)]] c5vpPos c5vpZ =
      .ok (FlowNetwork.mk [((0 : ℤ), (2 : ℤ))] [] [[]]) ∧
    ((0 : ℤ), (2 : ℤ)) ∈ (FlowNetwork.mk [((0 : ℤ), (2 : ℤ))] [] [[]]).source := by
  refine ⟨rfl, ?_⟩
  have h := C5_network_construction [[]] [[(0, 0), (1, 1)]] c5vpPos c5vpZ
    (FlowNetwork.mk [((0 : ℤ), (2 : ℤ))] [] [[]]) rfl
  have h2 := (h.2.2.2.2 0 [(0, 0), (1, 1)] 2 (by norm_num) rfl rfl).2 (by norm_num)
  simpa using h2

unseal Rat.add Rat.sub Rat.mul heapSiftdown heapSiftupLoop in
/-- C6: the claim says the "mutual filtering" step of `Irving.scf` leaves
the two shortlist tables mutually consistent.  Refuted on the 2×2
instance whose stable matching from resident-oriented Gale-Shapley is
`[(1, 0), (0, 1)]` (zero-indexed): after truncation the shortlists are
`{0: [0], 1: [1, 0]}` and `{0: [], 1: [0]}`, and after filtering they are
`{0: [], 1: []}` and `{0: [], 1: [0]}` — woman 1 keeps man 0 although man
0's shortlist is empty.  The first loop overwrites the new list with
`np.append(preference_lists_1[i], j)` (the ORIGINAL unfiltered list plus
`j`) instead of accumulating kept entries, and the second loop keeps `i`
exactly when `j` is NOT in the new side-1 list (inverted test). -/
theorem C6_filter_not_mutually_consistent :
    galeShapleyScf true 0 10 (intMatToMat ordA1) (intMatToMat ordA2) [1, 1] =
      .ok [(1, 0), (0, 1)] ∧
    irvingTruncate 2 [(1, 0), (0, 1)] rankedA1 rankedA2 profA1 profA2 =
      .ok ([[0], [1, 0]], [[], [0]]) ∧
    irvingFilter 2 [[0], [1, 0]] [[], [0]] = .ok ([[], []], [[], [0]]) ∧
    mutuallyConsistent [[], []] [[], [0]] = false :=
  ⟨rfl, rfl, rfl, by decide⟩

unseal rotWalk rotSearch in
/-- C7: the claim says `find_rotations` returns the empty rotation list
when every man's shortlist is a singleton (no rotation exposed), as in
the classical 2-agent instance with inverted preferences.  Refuted: the
preference graph has no edges, and the walk reads `G[current_vertex][0]`
unconditionally, raising `IndexError` on the empty adjacency list. -/
theorem C7_find_rotations_singleton_index_error :
    findRotations [[0], [1]] [[0], [1]] = .error .indexError :=
  rfl

unseal rotWalk rotSearch elimWhile in
/-- C8 counterexample to the claimed termination argument: on 2×2
shortlists exposing one rotation, `find_rotations` succeeds but
`find_all_rotations_and_eliminations` raises `IndexError` without any
shortlist ever shrinking — no round "strictly shrinks at least one
woman's shortlist". -/
theorem C8_counterexample :
    findRotations [[0, 1], [1, 0]] [[1, 0], [0, 1]] = .ok [[(0, 0), (1, 1)]] ∧
    findAllRotationsAndEliminations 5 [[0, 1], [1, 0]] [[1, 0], [0, 1]] =
      .error .indexError :=
  ⟨rfl, rfl⟩

/-- C8 (amended): `find_all_rotations_and_eliminations` does terminate on
every input, but not for the claimed reason.  Its outer round loop
executes at most ONE round: any amount of fuel beyond the first round
gives the same result as one round, because a round that discovers at
least one (necessarily nonempty) rotation aborts with an error inside the
elimination — the inner while-loop initialises
`k = len(preference_lists_2[w_i])` and immediately reads index `k` — 
before any shortlist shrinks, and a round with no rotation returns. -/
theorem C8_outer_loop_at_most_one_round :
    (∀ (pl1 pl2 : List (List ℤ)) (fuel : ℕ),
      findAllRotationsAndEliminations (fuel + 1) pl1 pl2 =
        findAllRotationsAndEliminations 1 pl1 pl2) ∧
    (∀ (rotations : List (List (ℤ × ℤ))) (st : ElimState),
      rotations ≠ [] → (∀ r ∈ rotations, r ≠ []) →
      ∃ e, elimRound rotations st = .error e) :=
  ⟨findAll_fuel, fun rotations st hne hmem => elimRound_error rotations hne hmem st⟩

/-- C9: `GaleShapley.scf` raises `ValueError` with the descriptive
dimension-mismatch message exactly when the hospital profile's shape is
not the transpose of the resident profile's; the check is the first thing
the function does, and the whole-call result IS that error, so no partial
result is returned; and when the shapes do match, no `ValueError` of any
message is ever raised by the rest of the run. -/
theorem C9_dimension_check :
    (∀ (ro : Bool) (fx : ℤ) (fuel : ℕ) (rp hp : Mat) (c : List ℤ),
      (rp.length ≠ shape1 hp ∨ shape1 rp ≠ hp.length) →
      galeShapleyScf ro fx fuel rp hp c = .error (.valueError dimErrMsg)) ∧
    (∀ (ro : Bool) (fx : ℤ) (fuel : ℕ) (rp hp : Mat) (c : List ℤ),
      rp.length = shape1 hp → shape1 rp = hp.length →
      ∀ s, galeShapleyScf ro fx fuel rp hp c ≠ .error (.valueError s)) := by
  constructor
  · intro ro fx fuel rp hp c hmm
    simp only [galeShapleyScf]
    rw [if_pos hmm]
  · intro ro fx fuel rp hp c h1 h2 s
    simp only [galeShapleyScf]
    rw [if_neg (by push_neg; exact ⟨h1, h2⟩)]
    exact noVE_galeShapleyMain ro fx fuel rp hp c s

/-- C9 witness: the dimension check at a concrete mismatched instance
(one 1×1 resident profile against an empty hospital profile). -/
theorem C9_dimension_check_witness :
    galeShapleyScf true 1 5 [[qv 1]] [] [] = .error (.valueError dimErrMsg) :=
  C9_dimension_check.1 true 1 5 [[qv 1]] [] [] (Or.inl (by decide))

/-- C10: in hospital-oriented `GaleShapley.scf`, when a resident whose
tracked previous hospital is the sentinel `-1` accepts an offer from
hospital `h`, line 169 decrements `hospital_accepted_offers[-1]` — the
LAST hospital's counter — besides incrementing `h`'s (first conjunct, for
every counter list and every in-range `h`).  Consequently, on a
1-resident/2-hospital instance (the loop's initial state is exactly the
one `GaleShapley.scf` builds for it), the loop ends with hospital 2's
counter at `-1` — negative, and different from the number of residents
holding its offers (0, third conjunct) — although hospital 2 never had an
offer accepted; the call still returns `[(1, 1)]`. -/
theorem C10_sentinel_decrements_last_counter :
    (∀ (accepted : List ℤ) (hospital : ℤ),
      0 ≤ hospital → hospital.toNat < accepted.length →
      acceptedUpdate accepted hospital (-1) =
        .ok ((accepted.set hospital.toNat (accepted.getD hospital.toNat 0 + 1)).set
          (accepted.length - 1)
          ((accepted.set hospital.toNat
              (accepted.getD hospital.toNat 0 + 1)).getD (accepted.length - 1) 0 - 1))) ∧
    hoLoop (minusOne rpC10) (minusOne hpC10) (argsortMat (minusOne hpC10)) [1, 1] 2 10
      { hospitalOffers := [-1, -1], residentWaitingLists := [-1]
        hospitalAcceptedOffers := [0, 0], currentOfferers := [1, 1] } =
      .ok { hospitalOffers := [0, 0], residentWaitingLists := [0]
            hospitalAcceptedOffers := [1, -1], currentOfferers := [0, 2] } ∧
    (([0] : List ℤ).count 1 = 0 ∧ ([1, -1] : List ℤ).getD 1 0 < 0) ∧
    galeShapleyScf false 1 10 rpC10 hpC10 [1, 1] = .ok [(1, 1)] :=
  ⟨acceptedUpdate_firstOffer, rfl, by decide, rfl⟩
